import Mathlib

/-!
Verification development for the Data-Pipeline repository.

Shallow embedding of the core modules the claims refer to:
  * `src/app/src/clients/gcs.py`      (URL parsing, `SplitEvenly`, `ComposeObjects`)
  * `src/app/src/pipelines/shardstage.py` (`ShardStage.ShardStage`)
  * `src/app/src/csvmatchreplace/transform.py` and `timestamp.py`
  * `src/app/src/pipelines/linter.py` (`PipelineLinter`, `LintResults`,
    `UpdateNestedDict`)

Python integers are modelled as `Int`/`Nat` (the float round-trips through
`math.ceil(float(a) / b)` in the source are exact for the sizes involved and
are modelled as exact ceiling division).  Fallible code returns `Except`;
Python exceptions are `.error` values carrying the exception text.  External
collaborators (the storage service, `uuid.uuid4`, `jinja2` rendering,
`parsedatetime`, `re.sub`, stage plug-ins) are parameters of the embedding.
-/

set_option autoImplicit false

/-! ## Arithmetic helper: exact ceiling division

The source computes `int(math.ceil(float(a) / b))` for positive ints; for the
ranges involved this equals exact ceiling division on naturals. -/

def cdiv (a b : Nat) : Nat := (a + b - 1) / b

/-! ## List helpers -/

/-! ## `gcs.py`: URL parsing

Model of Python 2's `urlparse.urlsplit` restricted to what
`Gcs.UrlToBucketAndName` consumes: the (lower-cased) scheme, the netloc and
the path (query and fragment are split off).  A scheme is recognised when the
text before the first `':'` is non-empty, consists of scheme characters, and
the rest is not a pure digit string (the `path:80` special case of
`urlsplit`). -/

def schemeChar (c : Char) : Bool :=
  c.isAlpha || c.isDigit || c = '+' || c = '-' || c = '.'

structure UrlParts where
  scheme : List Char
  netloc : List Char
  path : List Char
  deriving DecidableEq, Repr

/-- The text before the first `':'`. -/
def urlBefore (url : List Char) : List Char :=
  url.takeWhile (fun c => c ≠ ':')

/-- Scheme recognition: a colon exists, the text before it is a non-empty run
of scheme characters, and what follows is not a pure digit string. -/
def urlSchemeOk (url : List Char) : Bool :=
  decide ((urlBefore url).length < url.length) &&
  !(urlBefore url).isEmpty &&
  (urlBefore url).all schemeChar &&
  !(decide (url.drop ((urlBefore url).length + 1) ≠ []) &&
    (url.drop ((urlBefore url).length + 1)).all Char.isDigit)

def urlScheme (url : List Char) : List Char :=
  if urlSchemeOk url then (urlBefore url).map Char.toLower else []

def urlAfterScheme (url : List Char) : List Char :=
  if urlSchemeOk url then url.drop ((urlBefore url).length + 1) else url

/-- The netloc stops at the first `'/'`, `'?'` or `'#'`. -/
def nlPred (c : Char) : Bool := c ≠ '/' && c ≠ '?' && c ≠ '#'

def urlHasNetloc (url : List Char) : Bool :=
  decide ((urlAfterScheme url).take 2 = ['/', '/'])

def urlNetloc (url : List Char) : List Char :=
  if urlHasNetloc url then ((urlAfterScheme url).drop 2).takeWhile nlPred
  else []

def urlAfterNetloc (url : List Char) : List Char :=
  if urlHasNetloc url then ((urlAfterScheme url).drop 2).dropWhile nlPred
  else urlAfterScheme url

/-- Fragment then query are split off; only the path remains. -/
def urlPath (url : List Char) : List Char :=
  ((urlAfterNetloc url).takeWhile (fun c => c ≠ '#')).takeWhile
    (fun c => c ≠ '?')

def pyUrlsplitAux (url : List Char) : UrlParts :=
  { scheme := urlScheme url, netloc := urlNetloc url, path := urlPath url }

def pyUrlsplit (url : String) : UrlParts := pyUrlsplitAux url.toList

/-- `Gcs.UrlToBucketAndName` (gcs.py lines 72-88): raise `ValueError` unless
the scheme is `gs`, else return `(netloc, path[1:])`. -/
def urlToBucketAndName (url : String) : Except String (String × String) :=
  let p := pyUrlsplit url
  if p.scheme.isEmpty || p.scheme ≠ "gs".toList then
    .error "ValueError: Unsupported protocol scheme"
  else
    .ok (String.mk p.netloc, String.mk (p.path.drop 1))

/-- `Gcs.MakeUrl` (gcs.py lines 118-129). -/
def makeUrl (bucket obj : String) : String := "gs://" ++ bucket ++ "/" ++ obj

/-- `Gcs.UrlCreator(bucket, prefix)()` (gcs.py lines 58-70); `uid` stands for
the `str(uuid.uuid4())` produced by the call. -/
def urlCreatorCall (bucket pfx uid : String) : String :=
  "gs://" ++ bucket ++ "/" ++ pfx ++ uid

/-! ## `gcs.py`: `SplitEvenly` (lines 376-388) -/

/-- The `while idx < arr_len: yield arr[idx:idx + split_size]` loop, with a
structural fuel argument (the callers pass the list length, which always
suffices since `split_size ≥ 1`; a zero `max_size` would raise
`ZeroDivisionError` in the source before the loop). -/
def chunksOfF {α : Type} (s : Nat) : Nat → List α → List (List α)
  | _, [] => []
  | 0, _ :: _ => []
  | fuel + 1, x :: t =>
      if s = 0 then [] else
        (x :: t).take s :: chunksOfF s fuel ((x :: t).drop s)

def chunksOf {α : Type} (s : Nat) (l : List α) : List (List α) :=
  chunksOfF s l.length l

def splitEvenly {α : Type} (arr : List α) (maxSize : Nat) : List (List α) :=
  if arr.length < 1 then []
  else chunksOf (cdiv arr.length (cdiv arr.length maxSize)) arr

/-! ## `gcs.py`: object store state and `ComposeObjects` (lines 280-373)

The storage service is modelled by a map from object names to contents
(contents are abstract atoms); a compose call writes the concatenation of the
source contents to the destination.  `uuid : Nat → String` supplies the
successive `str(uuid.uuid4())` results and `ctr` counts the calls made so
far.  `bucket` and `content_type` are threaded but do not affect the model.
Python exceptions are `.error` values. -/

def storeGet (st : List (String × List Nat)) (name : String) : List Nat :=
  match st with
  | [] => []
  | (n, c) :: rest => if n = name then c else storeGet rest name

def storeSet (st : List (String × List Nat)) (name : String)
    (content : List Nat) : List (String × List Nat) :=
  match st with
  | [] => [(name, content)]
  | (n, c) :: rest =>
      if n = name then (n, content) :: rest else (n, c) :: storeSet rest name content

def storeDel (st : List (String × List Nat)) (name : String) :
    List (String × List Nat) :=
  match st with
  | [] => []
  | (n, c) :: rest => if n = name then rest else (n, c) :: storeDel rest name

structure GcsState where
  store : List (String × List Nat)
  ctr : Nat
  deriving Repr

/-- `Gcs.CompressObject` (gcs.py lines 332-373).  The source assigns
`tmp = self.UrlCreator(bucket=src_bucket)` (a *function*, never called) and
sets `tmp_path = Gcs.UrlToBucketAndNamePath(src)` — the same path as
`src_path` — so the copy loop rewrites `src` onto itself; it then deletes the
source object and calls `self.CopyObject(tmp, src)` with the function object,
which raises inside `UrlToBucketAndName`. -/
def compressObject (st : GcsState) (src : String) :
    Except String GcsState := do
  if src.isEmpty then
    throw "ValueError: No source specified."
  let bo ← urlToBucketAndName src
  let st1 := { st with store := storeSet st.store bo.2 (storeGet st.store bo.2) }
  let _ := { st1 with store := storeDel st1.store bo.2 }
  throw "AttributeError: CopyObject received the UrlCreator function, not a URL"

/-- The flatten loop of the over-total-limit branch:
`for dest_obj in tmp: self.CompressObject(self.MakeUrl(*dest_obj))`.
`dest_obj` is a temp object *name* (a 36-character uuid string), and
`MakeUrl(*dest_obj)` unpacks it character by character into `MakeUrl`'s two
parameters, raising `TypeError` unless the name happens to have exactly two
characters. -/
def flattenTmps : List String → GcsState → Except String GcsState
  | [], st => .ok st
  | t :: rest, st =>
      match t.toList with
      | [c0, c1] => do
          let st1 ← compressObject st (makeUrl (String.mk [c0]) (String.mk [c1]))
          flattenTmps rest st1
      | _ => .error "TypeError: MakeUrl() takes exactly 2 arguments"

mutual
/-- `Gcs.ComposeObjects` (gcs.py lines 280-330), with a structural fuel
argument standing for the call-stack depth (always sufficient in the
theorems below).  In the over-total-limit branch the loop variable
`dest_obj` shadows the parameter, so the final recursive compose targets
the *last temp name* instead of the destination. -/
def composeObjects (uuid : Nat → String) (bucket ct : String) :
    Nat → GcsState → List String → String → Except String GcsState
  | 0, _, _, _ => .error "RecursionError"
  | fuel + 1, st, srcs, dest =>
      if srcs.length < 1 then .ok st
      else if srcs.length ≤ 32 then
        .ok { st with
              store := storeSet st.store dest
                (srcs.flatMap (storeGet st.store)) }
      else if srcs.length ≤ 1024 then do
        let r ← composeChunks uuid bucket ct fuel (splitEvenly srcs 32) st []
        let st2 ← composeObjects uuid bucket ct fuel r.1 r.2 dest
        .ok { st2 with store := r.2.foldl storeDel st2.store }
      else do
        let r ← composeChunks uuid bucket ct fuel (splitEvenly srcs 1024) st []
        let st2 ← flattenTmps r.2 r.1
        let st3 ← composeObjects uuid bucket ct fuel st2 r.2 (r.2.getLastD dest)
        .ok { st3 with store := r.2.foldl storeDel st3.store }
termination_by fuel _ _ _ => (fuel, 0)

/-- The `for chunk in SplitEvenly(...)` loops of `ComposeObjects`: create a
unique name, compose the chunk into it, collect the names in order. -/
def composeChunks (uuid : Nat → String) (bucket ct : String) :
    Nat → List (List String) → GcsState → List String →
    Except String (GcsState × List String)
  | _, [], st, acc => .ok (st, acc)
  | fuel, chunk :: rest, st, acc => do
      let bo ← urlToBucketAndName (urlCreatorCall bucket "" (uuid st.ctr))
      let st1 ← composeObjects uuid bucket ct fuel
        { st with ctr := st.ctr + 1 } chunk bo.2
      composeChunks uuid bucket ct fuel rest st1 (acc ++ [bo.2])
termination_by fuel chunks _ _ => (fuel, chunks.length + 1)
end

/-! ## `shardstage.py`: `ShardStage.ShardStage` (lines 52-111)

The stage config keys the method reads are modelled as a structure, with the
`config.get(key, default)` defaults baked in (`length` 0, `shardSize` -1,
`start` 0, `shardPrefix` `''`); `sinks` is `none` when the key is absent
(`config.get('sinks')`).  `uuid` supplies the successive `uuid.uuid4()`
strings used by `Gcs.UrlCreator`. -/

structure SConfig where
  start : Int := 0
  length : Int := 0
  shardSize : Int := -1
  shardPfx : String := ""
  sinks : Option (List String) := none
  contentType : Option String := none
  deriving Repr, DecidableEq

structure CompCfg where
  contentType : String
  deleteSources : Bool
  sources : List String
  sinks : List String
  deriving Repr, DecidableEq

/-- `int(math.ceil(float(length) / math.ceil(float(length) / shard_size)))`
(shardstage.py lines 76-77), evaluated only when `1 ≤ shardSize < length`. -/
def rebalancedShardSize (length shardSize : Int) : Int :=
  Int.ofNat (cdiv length.toNat (cdiv length.toNat shardSize.toNat))

/-- The `while position < final_position` walk (lines 82-96), recording each
shard's `(start, length)`; fuel is structural and the callers pass
`length.toNat`, sufficient because the rebalanced step is ≥ 1. -/
def shardWalkF (s : Int) : Nat → Int → Int → List (Int × Int)
  | 0, _, _ => []
  | fuel + 1, pos, fin =>
      if pos < fin then
        (pos, min s (fin - pos)) :: shardWalkF s fuel (pos + s) fin
      else []

/-- Sink rewriting for one shard (lines 84-87): each original sink is parsed
and replaced by a fresh unique URL under `<obj>/<shard_prefix>`. -/
def mkShardSinks (uuid : Nat → String) (pfx : String) :
    List String → Nat → Except String (List String × Nat)
  | [], c => .ok ([], c)
  | s0 :: rest, c => do
      let bo ← urlToBucketAndName s0
      let r ← mkShardSinks uuid pfx rest (c + 1)
      .ok (urlCreatorCall bo.1 (bo.2 ++ "/" ++ pfx) (uuid c) :: r.1, r.2)

/-- Builds the cloned per-shard configs for the recorded ranges. -/
def mkShards (uuid : Nat → String) (pfx : String) (sinks : List String)
    (base : SConfig) :
    List (Int × Int) → Nat → Except String (List SConfig × Nat)
  | [], c => .ok ([], c)
  | (pos, len) :: rest, c => do
      let r1 ← mkShardSinks uuid pfx sinks c
      let r2 ← mkShards uuid pfx sinks base rest r1.2
      .ok ({ base with start := pos, length := len, sinks := some r1.1 } :: r2.1,
        r2.2)

/-- The compositor construction loop (lines 98-107). -/
def mkCompositors (ct : String) (origSinks : List String)
    (shardSinks : List (List String)) : List CompCfg :=
  (List.range (shardSinks.headD []).length).map (fun i =>
    { contentType := ct
      deleteSources := true
      sources := shardSinks.map (fun sl => sl.getD i "")
      sinks := [origSinks.getD i ""] })

/-- `ShardStage.ShardStage(config)`.  Returns the post-call config (the
method assigns the rebalanced size back into the caller's mapping via
`config['shardSize'] = shard_size`) together with the
`(shards, compositors)` result or the Python exception. -/
def shardStage (uuid : Nat → String) (cfg : SConfig) :
    SConfig × Except String (List SConfig × List CompCfg) :=
  if cfg.shardSize < 1 ∨ cfg.length ≤ cfg.shardSize then (cfg, .ok ([], []))
  else
    let s := rebalancedShardSize cfg.length cfg.shardSize
    let cfg2 := { cfg with shardSize := s }
    match cfg.sinks with
    | none => (cfg2, .error "TypeError: object of type NoneType has no len()")
    | some sinks =>
        let ranges := shardWalkF s cfg.length.toNat cfg.start
          (cfg.start + cfg.length)
        match mkShards uuid cfg.shardPfx sinks cfg2 ranges 0 with
        | .error e => (cfg2, .error e)
        | .ok (shards, _) =>
            let shardSinks := shards.map (fun sc => sc.sinks.getD [])
            (cfg2, .ok (shards,
              mkCompositors (cfg2.contentType.getD "binary/octet-stream")
                sinks shardSinks))

/-! Shard-walk lemmas. -/

/-- Contiguity checker: the ranges cover `[pos, fin)` in ascending order with
positive lengths and no gaps or overlaps. -/
def isPartitionFrom (fin : Int) : Int → List (Int × Int) → Bool
  | pos, [] => pos = fin
  | pos, (a, l) :: rest => a = pos && 0 < l && isPartitionFrom fin (pos + l) rest

/-! `mkShards` preserves the recorded ranges. -/

/-! ## Concrete inputs used by counterexamples and witnesses -/

def demoUuid (n : Nat) : String := "u" ++ Nat.repr n

def c1cfg : SConfig :=
  { start := 0, length := 10, shardSize := 4, sinks := some ["gs://b/o"],
    contentType := some "text/csv" }

def c7cfg : SConfig :=
  { start := 0, length := 11, shardSize := 5, sinks := some ["gs://b/o"] }

/-! ## Lemmas for `ComposeObjects` (claim C3) -/

def c3uuid (_ : Nat) : String := "u"

/-! ## `bigquery.py`: `ColumnTypes` (lines 30-49) -/

def ColumnTypes.EMPTY : Nat := 0

def ColumnTypes.STRING : Nat := 1

def ColumnTypes.INTEGER : Nat := 2

def ColumnTypes.FLOAT : Nat := 3

def ColumnTypes.BOOLEAN : Nat := 4

def ColumnTypes.TIMESTAMP : Nat := 5

/-- `ColumnTypes.strings[column_type]`, as used in the `CellError` message. -/
def columnTypeName (t : Nat) : String :=
  if t = 0 then "Empty"
  else if t = 1 then "STRING"
  else if t = 2 then "INTEGER"
  else if t = 3 then "FLOAT"
  else if t = 4 then "BOOLEAN"
  else if t = 5 then "TIMESTAMP"
  else "KeyError"

/-! ## `timestamp.py`: timestamp normalisation (lines 41-161)

`datetime.datetime` values are naive records (Python 2's `strptime` rejects
the `%z` directive with `ValueError`, so no parse path ever produces an
aware value; a naive value renders `%z` as the empty string). -/

structure PyDtm where
  year : Nat := 1900
  month : Nat := 1
  day : Nat := 1
  hour : Nat := 0
  minute : Nat := 0
  second : Nat := 0
  micro : Nat := 0
  deriving Repr, DecidableEq

def pad2 (n : Nat) : String :=
  if n < 10 then "0" ++ Nat.repr n else Nat.repr n

def pad4 (n : Nat) : String :=
  if n < 10 then "000" ++ Nat.repr n
  else if n < 100 then "00" ++ Nat.repr n
  else if n < 1000 then "0" ++ Nat.repr n
  else Nat.repr n

def pad6 (n : Nat) : String :=
  if n < 10 then "00000" ++ Nat.repr n
  else if n < 100 then "0000" ++ Nat.repr n
  else if n < 1000 then "000" ++ Nat.repr n
  else if n < 10000 then "00" ++ Nat.repr n
  else if n < 100000 then "0" ++ Nat.repr n
  else Nat.repr n

/-- `dt.strftime('%Y-%m-%d %H:%M:%S.%f %z')` on a naive datetime: `%z`
renders empty, so the trailing space is retained. -/
def strftimeOutput (d : PyDtm) : String :=
  pad4 d.year ++ "-" ++ pad2 d.month ++ "-" ++ pad2 d.day ++ " " ++
  pad2 d.hour ++ ":" ++ pad2 d.minute ++ ":" ++ pad2 d.second ++ "." ++
  pad6 d.micro ++ " "

/-! A small `strptime` interpreter mirroring Python 2's `_strptime`
regexes for the directives the module's formats use (`%Y %y %m %d %H %M %S
%f %b`; `%z` raises `ValueError` in Python 2 and is modelled as never
matching). -/

inductive FmtTok where
  | lit (c : Char)
  | dir (c : Char)
  deriving Repr, DecidableEq

def parseFmt : List Char → Option (List FmtTok)
  | [] => some []
  | '%' :: [] => none
  | '%' :: c :: rest => (parseFmt rest).map (FmtTok.dir c :: ·)
  | c :: rest => (parseFmt rest).map (FmtTok.lit c :: ·)

def isDig (c : Char) : Bool := '0' ≤ c && c ≤ '9'

def digVal (c : Char) : Nat := c.toNat - 48

def monthAbbrevs : List (String × Nat) :=
  [("jan", 1), ("feb", 2), ("mar", 3), ("apr", 4), ("may", 5), ("jun", 6),
   ("jul", 7), ("aug", 8), ("sep", 9), ("oct", 10), ("nov", 11), ("dec", 12)]

/-- Candidate `(value, consumed)` pairs for one directive at the current
position, in the order of the Python regex alternations. -/
def matchDirCandidates (c : Char) (cs : List Char) : List (Nat × Nat) :=
  match c, cs with
  | 'Y', a :: b :: c2 :: d2 :: _ =>
      if isDig a && isDig b && isDig c2 && isDig d2 then
        [(digVal a * 1000 + digVal b * 100 + digVal c2 * 10 + digVal d2, 4)]
      else []
  | 'y', a :: b :: _ =>
      if isDig a && isDig b then
        let v := digVal a * 10 + digVal b
        [(if v ≤ 68 then 2000 + v else 1900 + v, 2)]
      else []
  | 'm', a :: b :: _ =>
      (if a = '1' && isDig b && b ≤ '2' then [(10 + digVal b, 2)] else []) ++
      (if a = '0' && isDig b && '1' ≤ b then [(digVal b, 2)] else []) ++
      (if isDig a && '1' ≤ a then [(digVal a, 1)] else [])
  | 'm', a :: [] =>
      if isDig a && '1' ≤ a then [(digVal a, 1)] else []
  | 'd', a :: b :: _ =>
      (if a = '3' && (b = '0' || b = '1') then [(30 + digVal b, 2)] else []) ++
      (if (a = '1' || a = '2') && isDig b then
        [(digVal a * 10 + digVal b, 2)] else []) ++
      (if a = '0' && isDig b && '1' ≤ b then [(digVal b, 2)] else []) ++
      (if isDig a && '1' ≤ a then [(digVal a, 1)] else [])
  | 'd', a :: [] =>
      if isDig a && '1' ≤ a then [(digVal a, 1)] else []
  | 'H', a :: b :: _ =>
      (if a = '2' && isDig b && b ≤ '3' then [(20 + digVal b, 2)] else []) ++
      (if (a = '0' || a = '1') && isDig b then
        [(digVal a * 10 + digVal b, 2)] else []) ++
      (if isDig a then [(digVal a, 1)] else [])
  | 'H', a :: [] =>
      if isDig a then [(digVal a, 1)] else []
  | 'M', a :: b :: _ =>
      (if a ≤ '5' && isDig a && isDig b then
        [(digVal a * 10 + digVal b, 2)] else []) ++
      (if isDig a then [(digVal a, 1)] else [])
  | 'M', a :: [] =>
      if isDig a then [(digVal a, 1)] else []
  | 'S', a :: b :: _ =>
      (if a = '6' && (b = '0' || b = '1') then [(60 + digVal b, 2)] else []) ++
      (if a ≤ '5' && isDig a && isDig b then
        [(digVal a * 10 + digVal b, 2)] else []) ++
      (if isDig a then [(digVal a, 1)] else [])
  | 'S', a :: [] =>
      if isDig a then [(digVal a, 1)] else []
  | 'f', cs2 =>
      let ds := (cs2.takeWhile isDig).take 6
      let mkf : Nat → List (Nat × Nat) := fun n =>
        let taken := ds.take n
        [((taken.foldl (fun a c => a * 10 + digVal c) 0) *
          (10 ^ (6 - n)), n)]
      ((List.range ds.length).reverse.map (fun i => mkf (i + 1))).flatten
  | 'b', a :: b :: c2 :: _ =>
      let w := String.mk [a.toLower, b.toLower, c2.toLower]
      (monthAbbrevs.filter (fun p => p.1 = w)).map (fun p => (p.2, 3))
  | _, _ => []

/-- Which `PyDtm` field a directive's parsed value sets. -/
def applyDir (d : PyDtm) (c : Char) (v : Nat) : PyDtm :=
  if c = 'Y' || c = 'y' then { d with year := v }
  else if c = 'm' || c = 'b' then { d with month := v }
  else if c = 'd' then { d with day := v }
  else if c = 'H' then { d with hour := v }
  else if c = 'M' then { d with minute := v }
  else if c = 'S' then { d with second := v }
  else if c = 'f' then { d with micro := v }
  else d

mutual
/-- Backtracking matcher over the format tokens (the Python regex engine's
ordered-alternation behaviour); fuel is structural and the caller passes a
bound that always suffices for the module's fixed formats. -/
def matchToksF : Nat → List FmtTok → List Char → PyDtm → Option PyDtm
  | 0, _, _, _ => none
  | _ + 1, [], cs, d => if cs.isEmpty then some d else none
  | fuel + 1, .lit c :: rest, cs, d =>
      match cs with
      | [] => none
      | x :: xs => if x = c then matchToksF fuel rest xs d else none
  | fuel + 1, .dir c :: rest, cs, d =>
      tryCandsF fuel rest c (matchDirCandidates c cs) cs d

def tryCandsF : Nat → List FmtTok → Char → List (Nat × Nat) → List Char →
    PyDtm → Option PyDtm
  | 0, _, _, _, _, _ => none
  | _ + 1, _, _, [], _, _ => none
  | fuel + 1, rest, c, (v, n) :: more, cs, d =>
      match matchToksF fuel rest (cs.drop n) (applyDir d c v) with
      | some r => some r
      | none => tryCandsF fuel rest c more cs d
end

def isLeapYear (y : Nat) : Bool :=
  (y % 4 = 0 && y % 100 ≠ 0) || y % 400 = 0

def daysInMonth (y m : Nat) : Nat :=
  if m = 2 then (if isLeapYear y then 29 else 28)
  else if m = 4 || m = 6 || m = 9 || m = 11 then 30
  else 31

/-- `datetime.datetime(...)` construction validity (day within month). -/
def validDtm (d : PyDtm) : Bool :=
  1 ≤ d.day && d.day ≤ daysInMonth d.year d.month

/-- `datetime.datetime.strptime(cell, fmt)`, `None` meaning `ValueError`. -/
def pyStrptime (cell fmt : String) : Option PyDtm :=
  match parseFmt fmt.toList with
  | none => none
  | some toks =>
      match matchToksF (fmt.length * 8 + 16) toks cell.toList {} with
      | none => none
      | some d => if validDtm d then some d else none

/-- `INPUT_TIMESTAMP_FORMATS` (timestamp.py lines 41-54). -/
def tsFormats : List String :=
  ["%Y-%m-%d %H:%M:%S.%f %z",
   "%Y/%m/%d %H:%M:%S.%f %z",
   "%m/%d/%Y %H:%M:%S.%f %z",
   "%m/%d/%y %H:%M:%S.%f %z",
   "%y-%m-%d %H:%M:%S.%f %z",
   "%y/%m/%d %H:%M:%S.%f %z",
   "%d%b%y:%H:%M:%S.%f %z",
   "%d%b%Y:%H:%M:%S.%f %z",
   "%d%b%y %H:%M:%S.%f %z",
   "%d%b%Y %H:%M:%S.%f %z"]

/-- `range(len(parts) - 1, 2, -1)`: `hi, hi-1, ..., 3`. -/
def descToThree (hi : Nat) : List Nat :=
  ((List.range (hi + 1)).filter (fun p => 3 ≤ p)).reverse

/-- `fmt.split('%')` (kernel-reducible list implementation). -/
def splitOnPercentAux : List Char → List Char → List (List Char)
  | acc, [] => [acc.reverse]
  | acc, c :: rest =>
      if c = '%' then acc.reverse :: splitOnPercentAux [] rest
      else splitOnPercentAux (c :: acc) rest

/-- `'%'.join(parts)`. -/
def joinPercent : List String → String
  | [] => ""
  | [x] => x
  | x :: rest => x ++ "%" ++ joinPercent rest

/-- The truncated formats tried by `ParseTimeFormat` (timestamp.py lines
146-161): the full format, then
`'%'.join(parts[:p]) + '%' + parts[p][0]` for `p` descending to 3. -/
def truncatedFmts (fmt : String) : List String :=
  let parts := (splitOnPercentAux [] fmt.toList).map String.mk
  fmt :: (descToThree (parts.length - 1)).map (fun p =>
    joinPercent (parts.take p) ++ "%" ++
      String.mk ((parts.getD p "").toList.take 1))

def firstStrptime (cell : String) : List String → Option PyDtm
  | [] => none
  | f :: rest =>
      match pyStrptime cell f with
      | some d => some d
      | none => firstStrptime cell rest

/-- `ParseTimeFormat(fmt, cell)`. -/
def parseTimeFormat (fmt cell : String) : Option PyDtm :=
  firstStrptime cell (truncatedFmts fmt)

/-- The `for f in INPUT_TIMESTAMP_FORMATS` loop with its early `break`. -/
def firstParseFmt : List String → String → Option PyDtm
  | [], _ => none
  | f :: rest, cell =>
      match parseTimeFormat f cell with
      | some d => some d
      | none => firstParseFmt rest cell

def pyLower (s : String) : String := String.mk (s.toList.map Char.toLower)

def pyStrip (s : String) : String :=
  String.mk (((s.toList.dropWhile Char.isWhitespace).reverse.dropWhile
    Char.isWhitespace).reverse)

/-- Python `int(cell)`: optional surrounding whitespace, optional sign, one
or more decimal digits; `none` means `ValueError`. -/
def intParse (s : String) : Option Int :=
  let cs := (pyStrip s).toList
  let core : List Char → Option Nat := fun ds =>
    if !ds.isEmpty && ds.all isDig then
      some (ds.foldl (fun a c => a * 10 + digVal c) 0)
    else none
  match cs with
  | '+' :: ds => (core ds).map (fun n => (n : Int))
  | '-' :: ds => (core ds).map (fun n => -(n : Int))
  | ds => (core ds).map (fun n => (n : Int))

/-- Python `float(cell)` acceptance (sign, digits with optional point,
optional exponent, or `inf`/`nan`). -/
def floatValid (s : String) : Bool :=
  let cs := (pyStrip s).toList
  let body := match cs with
    | '+' :: rest => rest
    | '-' :: rest => rest
    | rest => rest
  let mantissa := body.takeWhile (fun c => isDig c || c = '.')
  let expPart := body.drop mantissa.length
  let mantOk := !mantissa.isEmpty &&
    (mantissa.filter (fun c => c = '.')).length ≤ 1 &&
    !(mantissa.all (fun c => c = '.'))
  let expOk := match expPart with
    | [] => true
    | e :: rest =>
        if e = 'e' || e = 'E' then
          let rest2 := match rest with
            | '+' :: r => r
            | '-' :: r => r
            | r => r
          !rest2.isEmpty && rest2.all isDig
        else false
  (mantOk && expOk) || body = ['i', 'n', 'f'] || body = ['n', 'a', 'n']

/-! ## `transform.py`: `CellError`, `NormalizeCellByType`, `TransformCell`,
`TransformRow` (lines 31-101) -/

inductive PyErr where
  | cellError (message : String) (value : Option String) (index : Option Nat)
  | valueError (msg : String)
  | attributeError (msg : String)
  deriving Repr, DecidableEq

/-- External collaborators of the transform pipeline: `parsedatetime`'s
`Calendar.parse` (a `(value, resultKind)` pair), `datetime.fromtimestamp`
(`none` = `ValueError`), `str(float(_))` rendering for accepted floats and
`re.sub` application (patterns assumed valid). -/
structure TransformEnv where
  pdtParse : String → PyDtm × Nat
  fromtimestamp : Int → Option PyDtm
  floatStr : String → String
  reSub : String → String → String → String

/-- The `dt` variable of `NormalizeTimeStamp`: `None`, a datetime, or — via
the `dt = pdt_result_type` slip on the result-kind-3 branch — a plain
integer. -/
inductive DtVal where
  | noneVal
  | dtm (d : PyDtm)
  | num (n : Nat)
  deriving Repr, DecidableEq

def tsCanon (cell0 : String) : String := pyStrip (pyLower cell0)

def tsFormatPhase (cell : String) : Option PyDtm := firstParseFmt tsFormats cell

/-- `try: dt = datetime.datetime.fromtimestamp(int(cell)) except ValueError:
pass` — run unconditionally, overwriting any format-phase result. -/
def tsEpochPhase (env : TransformEnv) (cell : String) (dt0 : Option PyDtm) :
    Option PyDtm :=
  match intParse cell with
  | none => dt0
  | some n =>
      match env.fromtimestamp n with
      | some d => some d
      | none => dt0

/-- The `parsedatetime` fallback: kinds 1 and 2 build
`datetime.datetime(*pdt_result[:6])`; kind 3 assigns the result *kind* (the
int 3) to `dt`; anything else leaves `dt` unset. -/
def tsPdtPhase (env : TransformEnv) (cell : String) : Option PyDtm → DtVal
  | some d => .dtm d
  | none =>
      if (env.pdtParse cell).2 = 1 ∨ (env.pdtParse cell).2 = 2 then
        .dtm { (env.pdtParse cell).1 with micro := 0 }
      else if (env.pdtParse cell).2 = 3 then .num (env.pdtParse cell).2
      else .noneVal

/-- `if not dt: raise ValueError(...)` then `return dt.strftime(...)`;
calling `strftime` on the int 3 raises `AttributeError`. -/
def tsRender (cell : String) : DtVal → Except PyErr String
  | .noneVal =>
      .error (.valueError ("unable to convert " ++ cell ++ " to timestamp"))
  | .dtm d => .ok (strftimeOutput d)
  | .num _ =>
      .error (.attributeError "int object has no attribute strftime")

/-- `NormalizeTimeStamp(cell)` (timestamp.py lines 106-131). -/
def normalizeTimeStamp (env : TransformEnv) (cell0 : String) :
    Except PyErr String :=
  tsRender (tsCanon cell0)
    (tsPdtPhase env (tsCanon cell0)
      (tsEpochPhase env (tsCanon cell0) (tsFormatPhase (tsCanon cell0))))

/-- `NormalizeCellByType(cell, index, column_type)` (transform.py lines
104-127): `ValueError`s are wrapped into `CellError`; other exceptions
propagate. -/
def normalizeCellByType (env : TransformEnv) (cell : String) (index : Nat)
    (columnType : Nat) : Except PyErr String :=
  if cell.isEmpty then .ok "" else
  let res : Except PyErr String :=
    if columnType = ColumnTypes.INTEGER then
      match intParse cell with
      | some n => .ok (Int.repr n)
      | none =>
          .error (.valueError ("invalid literal for int(): " ++ cell))
    else if columnType = ColumnTypes.FLOAT then
      if floatValid cell then .ok (env.floatStr cell)
      else
        .error (.valueError ("could not convert string to float: " ++ cell))
    else if columnType = ColumnTypes.BOOLEAN then
      if pyLower cell = "true" ∨ pyLower cell = "1" then .ok "True"
      else if pyLower cell = "false" ∨ pyLower cell = "0" then .ok "False"
      else .error (.valueError "invalid value")
    else if columnType = ColumnTypes.TIMESTAMP then
      normalizeTimeStamp env cell
    else .ok cell
  match res with
  | .ok v => .ok v
  | .error (.valueError m) =>
      .error (.cellError ("Invalid value '" ++ cell ++ "' for column type " ++
        columnTypeName columnType ++ ": " ++ m) (some cell) (some index))
  | .error e => .error e

structure Column where
  type : Nat
  wanted : Bool
  transformations : List (String × String) := []
  deriving Repr, DecidableEq

/-- `TransformCell(cell, index, column)` (transform.py lines 84-101). -/
def transformCell (env : TransformEnv) (cell : String) (index : Nat)
    (column : Column) : Except PyErr String :=
  normalizeCellByType env
    (column.transformations.foldl (fun acc mr => env.reSub mr.1 mr.2 acc)
      cell)
    index column.type

/-- The per-column loop of `TransformRow`: a `CellError` is caught, recorded
and its best-effort `value` still appended to the output row; any other
exception propagates. -/
def transformRowLoop (env : TransformEnv) :
    List (String × Column) → Nat → List String → List PyErr →
    Except PyErr (List String × List PyErr)
  | [], _, outRow, errs => .ok (outRow, errs)
  | (cell, col) :: rest, i, outRow, errs =>
      if col.wanted then
        match transformCell env cell i col with
        | .ok v => transformRowLoop env rest (i + 1) (outRow ++ [v]) errs
        | .error (.cellError m v idx) =>
            transformRowLoop env rest (i + 1) (outRow ++ [v.getD ""])
              (errs ++ [.cellError m v idx])
        | .error e => .error e
      else transformRowLoop env rest (i + 1) outRow errs

/-- `TransformRow(row, config)` (transform.py lines 47-81). -/
def transformRow (env : TransformEnv) (row : List String)
    (columns : List Column) : Except PyErr (List String × List PyErr) :=
  transformRowLoop env (row.zip columns) 0 []
    (if row.length ≠ columns.length then
      [.cellError ("Invalid number of elements in row. Found " ++
        Nat.repr row.length ++ ", expected " ++ Nat.repr columns.length)
        none none]
    else [])

/-- A concrete collaborator instance in which `parsedatetime` never parses
anything (result kind 0). -/
def c8env : TransformEnv :=
  { pdtParse := fun _ => ({}, 0), fromtimestamp := fun _ => none,
    floatStr := id, reSub := fun _ _ s => s }

/-- `parsedatetime` collaborator that parses `"tomorrow 10pm"` as a combined
datetime (result kind 3), as the real library does. -/
def c4pdt : String → PyDtm × Nat := fun c =>
  if c = "tomorrow 10pm" then
    ({ year := 2013, month := 6, day := 7, hour := 22 }, 3)
  else ({}, 0)

def c4env : TransformEnv :=
  { pdtParse := c4pdt, fromtimestamp := fun _ => none, floatStr := id,
    reSub := fun _ _ s => s }

/-! ### Linter embedding (linter.py)

Python JSON-ish values.  JSON configs parse to these; Python `None`
is `pynone`.  Exceptions are modelled with `Except String`, carrying the
Python exception rendering. -/

inductive PyVal where
  | pynone : PyVal
  | pybool : Bool → PyVal
  | pyint : Int → PyVal
  | pystr : String → PyVal
  | pylist : List PyVal → PyVal
  | pydict : List (String × PyVal) → PyVal

def lookupKV (k : String) : List (String × PyVal) → Option PyVal
  | [] => none
  | (k', v) :: rest => if k' = k then some v else lookupKV k rest

mutual
def pyEqB : PyVal → PyVal → Bool
  | .pynone, .pynone => true
  | .pybool a, .pybool b => a == b
  | .pybool a, .pyint n => (if a then (1 : Int) else 0) == n
  | .pyint n, .pybool a => n == (if a then (1 : Int) else 0)
  | .pyint a, .pyint b => a == b
  | .pystr a, .pystr b => a == b
  | .pylist a, .pylist b => pyEqListB a b
  | .pydict a, .pydict b => pyEqKVsB a b && (a.length == b.length)
  | _, _ => false

def pyEqListB : List PyVal → List PyVal → Bool
  | [], [] => true
  | x :: xs, y :: ys => pyEqB x y && pyEqListB xs ys
  | _, _ => false

def pyEqKVsB : List (String × PyVal) → List (String × PyVal) → Bool
  | [], _ => true
  | (k, v) :: rest, b =>
    (match lookupKV k b with
     | some w => pyEqB v w
     | none => false) && pyEqKVsB rest b
end

def pyTruthy : PyVal → Bool
  | .pynone => false
  | .pybool b => b
  | .pyint n => n != 0
  | .pystr s => !s.isEmpty
  | .pylist l => !l.isEmpty
  | .pydict l => !l.isEmpty

def dictSet (kvs : List (String × PyVal)) (k : String) (v : PyVal) :
    List (String × PyVal) :=
  match kvs with
  | [] => [(k, v)]
  | (k', v') :: rest =>
    if k' = k then (k, v) :: rest else (k', v') :: dictSet rest k v

def hasKey (k : String) (kvs : List (String × PyVal)) : Bool :=
  (lookupKV k kvs).isSome

def pyTypeName : PyVal → String
  | .pynone => "NoneType"
  | .pybool _ => "bool"
  | .pyint _ => "int"
  | .pystr _ => "str"
  | .pylist _ => "list"
  | .pydict _ => "dict"

def natDigitsAux : Nat → Nat → List Char
  | 0, _ => []
  | fuel + 1, n =>
    if n < 10 then [Char.ofNat (48 + n)]
    else natDigitsAux fuel (n / 10) ++ [Char.ofNat (48 + n % 10)]

def natStr (n : Nat) : String := String.mk (natDigitsAux (n + 1) n)

def intStr : Int → String
  | .ofNat n => natStr n
  | .negSucc n => "-" ++ natStr (n + 1)

mutual
def pyReprOf : PyVal → String
  | .pynone => "None"
  | .pybool b => if b then "True" else "False"
  | .pyint n => intStr n
  | .pystr s => "'" ++ s ++ "'"
  | .pylist l => "[" ++ pyReprList l ++ "]"
  | .pydict kvs => "\x7b" ++ pyReprKVs kvs ++ "\x7d"

def pyReprList : List PyVal → String
  | [] => ""
  | [x] => pyReprOf x
  | x :: rest => pyReprOf x ++ ", " ++ pyReprList rest

def pyReprKVs : List (String × PyVal) → String
  | [] => ""
  | [(k, v)] => "'" ++ k ++ "': " ++ pyReprOf v
  | (k, v) :: rest => "'" ++ k ++ "': " ++ pyReprOf v ++ ", " ++ pyReprKVs rest
end

/-- Python `str(v)`: strings render bare, everything else as its repr. -/
def pyStrOf : PyVal → String
  | .pystr s => s
  | v => pyReprOf v

def listPrefixB : List Char → List Char → Bool
  | [], _ => true
  | _ :: _, [] => false
  | a :: as, b :: bs => a == b && listPrefixB as bs

def listInfixB (sub : List Char) : List Char → Bool
  | [] => listPrefixB sub []
  | c :: rest => listPrefixB sub (c :: rest) || listInfixB sub rest

/-- Python `item in container` (with the exceptions it raises). -/
def pyContains (container : PyVal) (item : PyVal) : Except String Bool :=
  match container with
  | .pydict kvs => .ok (match item with | .pystr k => hasKey k kvs | _ => false)
  | .pylist l => .ok (l.any (fun x => pyEqB item x))
  | .pystr s =>
    match item with
    | .pystr sub => .ok (listInfixB sub.toList s.toList)
    | _ => .error "TypeError: in <string> requires string as left operand"
  | v => .error ("TypeError: argument of type '" ++ pyTypeName v ++ "' is not iterable")

/-- Python `v[k]` for a string key. -/
def pyGetItem (v : PyVal) (k : String) : Except String PyVal :=
  match v with
  | .pydict kvs =>
    match lookupKV k kvs with
    | some x => .ok x
    | none => .error ("KeyError: '" ++ k ++ "'")
  | .pylist _ => .error "TypeError: list indices must be integers, not str"
  | .pystr _ => .error "TypeError: string indices must be integers, not str"
  | v' => .error ("TypeError: '" ++ pyTypeName v' ++ "' object has no attribute '__getitem__'")

/-- Python `v[k] = x` for a string key. -/
def pySetItem (v : PyVal) (k : String) (x : PyVal) : Except String PyVal :=
  match v with
  | .pydict kvs => .ok (.pydict (dictSet kvs k x))
  | .pylist _ => .error "TypeError: list indices must be integers, not str"
  | v' => .error ("TypeError: '" ++ pyTypeName v' ++ "' object does not support item assignment")

/-- Python `v.get(k, default)` (dicts only; anything else raises). -/
def pyGet (v : PyVal) (k : String) (default : PyVal) : Except String PyVal :=
  match v with
  | .pydict kvs => .ok ((lookupKV k kvs).getD default)
  | v' => .error ("AttributeError: '" ++ pyTypeName v' ++ "' object has no attribute 'get'")

def pyKeys : PyVal → Except String (List String)
  | .pydict kvs => .ok (kvs.map Prod.fst)
  | v => .error ("AttributeError: '" ++ pyTypeName v ++ "' object has no attribute 'keys'")

def pyIter : PyVal → Except String (List PyVal)
  | .pylist l => .ok l
  | .pydict kvs => .ok (kvs.map (fun kv => .pystr kv.fst))
  | .pystr s => .ok (s.toList.map (fun c => .pystr (String.mk [c])))
  | v => .error ("TypeError: '" ++ pyTypeName v ++ "' object is not iterable")

/-- linter.py `UpdateNestedDict`, iterating over `to_add.items()`: a key
missing from `master` is inserted; a key present in both recurses when the
added value is a dict and is otherwise skipped (the first value wins). -/
def undItems (master : PyVal) : List (String × PyVal) → Except String PyVal
  | [] => .ok master
  | (k, v) :: rest =>
    match pyContains master (.pystr k) with
    | .error e => .error e
    | .ok c =>
      if c then
        match v with
        | .pydict vkvs =>
          match pyGetItem master k with
          | .error e => .error e
          | .ok sub =>
            match undItems sub vkvs with
            | .error e => .error e
            | .ok sub' =>
              match pySetItem master k sub' with
              | .error e => .error e
              | .ok master' => undItems master' rest
        | _ => undItems master rest
      else
        match pySetItem master k v with
        | .error e => .error e
        | .ok master' => undItems master' rest

def updateNestedDict (master to_add : PyVal) : Except String PyVal :=
  match to_add with
  | .pydict kvs => undItems master kvs
  | v => .error ("AttributeError: '" ++ pyTypeName v ++ "' object has no attribute 'items'")

/-- One recorded `AddCheckResults` event (a history variable: the sequence of
check events, before the nested-dict merge into the results tree). -/
structure CheckRec where
  name : String
  pass : Bool
  reason : Option String
deriving DecidableEq

/-- State of `PipelineLinter`/`LintResults`: the aggregate `valid` flag, the
nested `results` tree, the current `config`, and the trace of recorded
check events. -/
structure LintState where
  valid : Bool
  results : PyVal
  config : PyVal
  trace : List CheckRec

def freshState : LintState :=
  { valid := true, results := .pydict [], config := .pynone, trace := [] }

/-- The check dict `c` built by `LintResults.AddCheckResults`. -/
def checkVal (b : Bool) (reason : Option String) : PyVal :=
  if b then .pydict [("pass", .pybool true)]
  else .pydict [("pass", .pybool false),
    ("reason", match reason with | some r => .pystr r | none => .pynone)]

/-- `LintResults.AddCheckResults`: `valid &&= b` and nested-dict merge of
`{name: c}` into the results tree (so an existing entry's `pass` wins). -/
def addCheckResults (st : LintState) (name : String) (b : Bool)
    (reason : Option String) : Except String LintState :=
  match undItems st.results [(name, checkVal b reason)] with
  | .error e => .error e
  | .ok results' =>
    .ok { st with valid := st.valid && b, results := results',
                  trace := st.trace ++ [⟨name, b, reason⟩] }

/-- `LintResults.AddStageCheckResults`: `valid &&= check.valid` and surgery
on the `stages` entry of the results tree. -/
def addStageCheckResults (st : LintState) (category : String)
    (sub : LintState) : Except String LintState :=
  match st.results with
  | .pydict kvs =>
    match lookupKV "stages" kvs with
    | none =>
      .ok { st with valid := st.valid && sub.valid,
                    results := .pydict (dictSet kvs "stages"
                      (.pydict [(category, .pylist [sub.results])])),
                    trace := st.trace ++ sub.trace }
    | some (.pydict skvs) =>
      match lookupKV category skvs with
      | none =>
        .ok { st with valid := st.valid && sub.valid,
                      results := .pydict (dictSet kvs "stages"
                        (.pydict (dictSet skvs category (.pylist [sub.results])))),
                      trace := st.trace ++ sub.trace }
      | some (.pylist l) =>
        .ok { st with valid := st.valid && sub.valid,
                      results := .pydict (dictSet kvs "stages"
                        (.pydict (dictSet skvs category (.pylist (l ++ [sub.results]))))),
                      trace := st.trace ++ sub.trace }
      | some v =>
        .error ("AttributeError: '" ++ pyTypeName v ++ "' object has no attribute 'append'")
    | some v =>
      .error ("TypeError: argument of type '" ++ pyTypeName v ++ "' is not iterable")
  | v => .error ("TypeError: argument of type '" ++ pyTypeName v ++ "' is not iterable")

/-- Outcome of `pipelines.GetStage(stage_config)`: the stage class was found
(with the check events its optional `Lint` method records, or `none` when it
has no `Lint` attribute), an `ImportError` was raised, or some other
exception escaped. -/
inductive StageRes where
  | found : Option (List CheckRec) → StageRes
  | importErr : String → StageRes
  | raised : String → StageRes

/-- Outcome of `jinja2.Template(dumps(config)).render(vars)` followed by the
post-template `json.loads`: rendering succeeded (carrying the re-parse
outcome of the rendered text), a `TemplateSyntaxError` was raised, or some
other exception escaped. -/
inductive TplOutcome where
  | rendered : Except String PyVal → TplOutcome
  | syntaxErr : String → TplOutcome
  | otherRaise : String → TplOutcome

/-- Collaborators of the linter: stage resolution, template rendering, the
App Engine identity strings and today's date strings. -/
structure LintEnv where
  getStage : PyVal → StageRes
  tpl : PyVal → PyVal → TplOutcome
  appId : String
  hostname : String
  serviceAccountName : String
  dateYmdDash : String
  dateYmd : String

/-- `PipelineLinter.SyntaxCheck`: on parse success store the config and
record `SyntaxValid` passing; on `ValueError`/`TypeError` keep the previous
config and record `SyntaxValid` failing with the phase-prefixed message. -/
def syntaxCheck (st : LintState) (p : Except String PyVal)
    (phase : Option String) : Except String LintState :=
  match p with
  | .ok v => addCheckResults { st with config := v } "SyntaxValid" true none
  | .error e =>
    addCheckResults st "SyntaxValid" false (some ((phase.getD "PreTemplate: ") ++ e))

/-- `PipelineLinter.AddDefaultOptions`: merge `default_options` into
`config['options']` (creating it when absent) with `UpdateNestedDict`. -/
def addDefaultOptions (st : LintState) (defaults : PyVal) :
    Except String LintState :=
  match pyGet st.config "options" (.pydict []) with
  | .error e => .error e
  | .ok options0 =>
    match (if pyTruthy defaults then updateNestedDict options0 defaults
           else .ok options0) with
    | .error e => .error e
    | .ok options1 =>
      match pySetItem st.config "options" options1 with
      | .error e => .error e
      | .ok config' => .ok { st with config := config' }

def appDict (env : LintEnv) : PyVal :=
  .pydict [("id", .pystr env.appId), ("hostname", .pystr env.hostname),
    ("serviceAccountName", .pystr env.serviceAccountName)]

def dateDict (env : LintEnv) : PyVal :=
  .pydict [("y-m-d", .pystr env.dateYmdDash), ("ymd", .pystr env.dateYmd)]

/-- `PipelineLinter.GetTemplateVariables`.  The `storage` entry of the final
`UpdateNestedDict` call aliases the (deep-copied) options' own `storage`
member, so merging it is the identity when the key was present and a plain
insert when it was absent — i.e. exactly a store of the updated storage
dict. -/
def getTemplateVariables (env : LintEnv) (config : PyVal) :
    Except String PyVal :=
  match pyGet config "options" (.pydict []) with
  | .error e => .error e
  | .ok options0 =>
    match pyGet options0 "storage" (.pydict []) with
    | .error e => .error e
    | .ok storage0 =>
      match undItems storage0 [("bucket", .pystr ""), ("prefix", .pystr "")] with
      | .error e => .error e
      | .ok storage1 =>
        match pyGetItem storage1 "bucket" with
        | .error e => .error e
        | .ok b =>
          match pyGetItem storage1 "prefix" with
          | .error e => .error e
          | .ok p =>
            match pySetItem storage1 "url"
                (.pystr ("gs://" ++ pyStrOf b ++ "/" ++ pyStrOf p)) with
            | .error e => .error e
            | .ok storage2 =>
              match pySetItem options0 "storage" storage2 with
              | .error e => .error e
              | .ok options1 =>
                match undItems options1 [("app", appDict env)] with
                | .error e => .error e
                | .ok options2 => undItems options2 [("date", dateDict env)]

/-- `PipelineLinter.ExpandTemplateVariables`.  On a template syntax error the
failing `TemplateValid` check is recorded and then — with no `return` or
`else` — the passing `TemplateValid` check is recorded as well, and the
un-rendered `json.dumps` output is what gets re-parsed (a round-trip of the
current config). -/
def expandTemplate (env : LintEnv) (st : LintState) :
    Except String (LintState × Except String PyVal) :=
  match getTemplateVariables env st.config with
  | .error e => .error e
  | .ok vars =>
    match env.tpl st.config vars with
    | .rendered reparse =>
      match addCheckResults st "TemplateValid" true none with
      | .error e => .error e
      | .ok st' => .ok (st', reparse)
    | .syntaxErr m =>
      match addCheckResults st "TemplateValid" false (some m) with
      | .error e => .error e
      | .ok st1 =>
        match addCheckResults st1 "TemplateValid" true none with
        | .error e => .error e
        | .ok st2 => .ok (st2, .ok st.config)
    | .otherRaise m => .error m

/-- `StageLinter.TypeCheck`. -/
def typeCheck (env : LintEnv) (st : LintState) (s : PyVal) :
    Except String LintState :=
  match pyGet s "type" .pynone with
  | .error e => .error e
  | .ok stageTv =>
    if pyTruthy stageTv then
      match env.getStage s with
      | .found _ => addCheckResults st ("TypeValid [" ++ pyStrOf stageTv ++ "]") true none
      | .importErr m =>
        addCheckResults st ("TypeValid [" ++ pyStrOf stageTv ++ "]") false (some m)
      | .raised m => .error m
    else
      addCheckResults st ("TypeValid [" ++ pyStrOf stageTv ++ "]") false
        (some "Type must be provided.")

/-- Replay of the check events a stage's `Lint(sl)` method records. -/
def runStageChecks (st : LintState) : List CheckRec → Except String LintState
  | [] => .ok st
  | c :: rest =>
    match addCheckResults st c.name c.pass c.reason with
    | .error e => .error e
    | .ok st' => runStageChecks st' rest

/-- One iteration of `StageLinter.SourceSinkCheck`'s loop body for a given
key (`sources` or `sinks`). -/
def sourceSinkOne (st : LintState) (s : PyVal) (which : String) :
    Except String LintState :=
  match pyContains s (.pystr which) with
  | .error e => .error e
  | .ok present =>
    if present then
      match pyGetItem s which with
      | .error e => .error e
      | .ok val =>
        match val with
        | .pynone =>
          addCheckResults st ("FieldExists [" ++ which ++ "]") true
            (some "Invalid value: 'null'")
        | _ =>
          match pyContains val .pynone with
          | .error e => .error e
          | .ok hasNone =>
            addCheckResults st ("FieldExists [" ++ which ++ "]") (!hasNone)
              (some "Invalid value: 'null'")
    else .ok st

/-- `PipelineLinter.LintStage`: run a fresh `StageLinter` over one stage
config (type check, optional stage-specific checks when still valid, then
the source/sink check) and return its results. -/
def lintStage (env : LintEnv) (s : PyVal) : Except String LintState :=
  match typeCheck env freshState s with
  | .error e => .error e
  | .ok st1 =>
    match (if st1.valid then
        match env.getStage s with
        | .found (some checks) => runStageChecks st1 checks
        | .found none => .ok st1
        | .importErr m => .error ("ImportError: " ++ m)
        | .raised m => .error m
      else .ok st1) with
    | .error e => .error e
    | .ok st2 =>
      match sourceSinkOne st2 s "sources" with
      | .error e => .error e
      | .ok st3 => sourceSinkOne st3 s "sinks"

/-- The per-category loop of `PipelineLinter.StageCheck`. -/
def lintStages (env : LintEnv) (st : LintState) (category : String) :
    List PyVal → Except String LintState
  | [] => .ok st
  | s :: rest =>
    match lintStage env s with
    | .error e => .error e
    | .ok sub =>
      match addStageCheckResults st category sub with
      | .error e => .error e
      | .ok st' => lintStages env st' category rest

def validRootKeys : List String := ["inputs", "outputs", "transforms", "options"]

def memStr (x : String) : List String → Bool
  | [] => false
  | y :: ys => x == y || memStr x ys

def dedupStr : List String → List String
  | [] => []
  | x :: xs =>
    let r := dedupStr xs
    if memStr x r then r else x :: r

def insertSorted (x : String) : List String → List String
  | [] => [x]
  | y :: ys => if decide (x ≤ y) then x :: y :: ys else y :: insertSorted x ys

def sortStrings : List String → List String
  | [] => []
  | x :: xs => insertSorted x (sortStrings xs)

def joinComma : List String → String
  | [] => ""
  | [x] => x
  | x :: rest => x ++ ", " ++ joinComma rest

/-- The body of `PipelineLinter.StageCheck`, over the already-computed
`config = self.config or {}`. -/
def stageCheckCore (env : LintEnv) (st : LintState) (config : PyVal) :
    Except String LintState :=
  match pyContains config (.pystr "inputs") with
  | .error e => .error e
  | .ok bi =>
    match (if bi then (pyGetItem config "inputs").map pyTruthy
           else .ok false) with
    | .error e => .error e
    | .ok ti =>
      match (if ti then (.ok true : Except String Bool) else
          match pyContains config (.pystr "outputs") with
          | .error e => .error e
          | .ok bo =>
            if bo then (pyGetItem config "outputs").map pyTruthy
            else .ok false) with
      | .error e => .error e
      | .ok hasIO =>
        match addCheckResults st "HasOneInputOrOutputStage" hasIO
            (some "Must have at least one \"inputs\" or \"outputs\" stage.") with
        | .error e => .error e
        | .ok st1 =>
          match pyKeys config with
          | .error e => .error e
          | .ok keys =>
            match addCheckResults st1 "NoUnknownKeys"
                (keys.filter (fun k => !memStr k validRootKeys)).isEmpty
                (some ("Unrecognized config keys: " ++
                  joinComma (sortStrings (dedupStr
                    (keys.filter (fun k => !memStr k validRootKeys)))))) with
            | .error e => .error e
            | .ok st2 =>
              match pyGet config "inputs" (.pylist []) with
              | .error e => .error e
              | .ok vin =>
                match pyIter vin with
                | .error e => .error e
                | .ok lin =>
                  match lintStages env st2 "inputs" lin with
                  | .error e => .error e
                  | .ok st3 =>
                    match pyGet config "transforms" (.pylist []) with
                    | .error e => .error e
                    | .ok vtr =>
                      match pyIter vtr with
                      | .error e => .error e
                      | .ok ltr =>
                        match lintStages env st3 "transforms" ltr with
                        | .error e => .error e
                        | .ok st4 =>
                          match pyGet config "outputs" (.pylist []) with
                          | .error e => .error e
                          | .ok vout =>
                            match pyIter vout with
                            | .error e => .error e
                            | .ok lout => lintStages env st4 "outputs" lout

/-- `PipelineLinter.StageCheck`. -/
def stageCheck (env : LintEnv) (st : LintState) : Except String LintState :=
  stageCheckCore env st (if pyTruthy st.config then st.config else .pydict [])

/-- Everything `PipelineLinter.Lint` does before `StageCheck`: the
pre-template syntax check and — when a truthy config parsed and truthy
default options were given — default-option merging, template expansion and
the post-template syntax check. -/
def preRun (env : LintEnv) (p1 : Except String PyVal) (defaults : PyVal) :
    Except String LintState :=
  match syntaxCheck freshState p1 none with
  | .error e => .error e
  | .ok st1 =>
    if pyTruthy st1.config && pyTruthy defaults then
      match addDefaultOptions st1 defaults with
      | .error e => .error e
      | .ok st2 =>
        match expandTemplate env st2 with
        | .error e => .error e
        | .ok (st3, reparse) =>
          syntaxCheck st3 reparse (some "PostTemplate: ")
    else .ok st1

/-- `PipelineLinter.Lint` (as invoked by the constructor): `p1` is the
outcome of `json.loads(json_minify(config_json))` and `defaults` the
`default_options` argument (`pynone` for `None`). -/
def lintRun (env : LintEnv) (p1 : Except String PyVal) (defaults : PyVal) :
    Except String LintState :=
  match preRun env p1 defaults with
  | .error e => .error e
  | .ok st => stageCheck env st

mutual
/-- All `pass` fields stored anywhere in a results tree. -/
def collectPasses : PyVal → List Bool
  | .pydict kvs => collectPassesKVs kvs
  | .pylist vs => collectPassesList vs
  | _ => []

def collectPassesKVs : List (String × PyVal) → List Bool
  | [] => []
  | (k, v) :: rest =>
    (if k = "pass" then
      (match v with | .pybool b => [b] | _ => [])
     else collectPasses v) ++ collectPassesKVs rest

def collectPassesList : List PyVal → List Bool
  | [] => []
  | v :: rest => collectPasses v ++ collectPassesList rest
end

def pyLookup (v : PyVal) (k : String) : Option PyVal :=
  match v with
  | .pydict kvs => lookupKV k kvs
  | _ => none

def resultsLookup (st : LintState) (k : String) : Option PyVal :=
  pyLookup st.results k

/-! ### Lemmas about the linter embedding -/

/-- "The step from `st` to `st'` appended some check events and conjoined
their `pass` flags onto `valid`." -/
def StepTV (st st' : LintState) : Prop :=
  ∃ δ, st'.trace = st.trace ++ δ ∧
    st'.valid = (st.valid && δ.all (fun c => c.pass))

def c6env : LintEnv :=
  { getStage := fun _ => .found none,
    tpl := fun _ _ => .rendered (.error "No JSON object could be decoded"),
    appId := "app", hostname := "app.example.com",
    serviceAccountName := "sa@example.com",
    dateYmdDash := "2013-06-06", dateYmd := "20130606" }

def c6cfg : PyVal :=
  .pydict [("inputs", .pylist [.pydict [("type", .pystr "GcsInput")]]),
           ("options", .pydict [("a", .pyint 1)])]

def c6defaults : PyVal := .pydict [("b", .pyint 2)]

def c6wenv : LintEnv :=
  { getStage := fun _ => .found none,
    tpl := fun _ _ => .rendered (.error "ignored"),
    appId := "a", hostname := "h", serviceAccountName := "s",
    dateYmdDash := "2014-01-01", dateYmd := "20140101" }

def c6wcfg : PyVal := .pydict [("x", .pyint 1)]

def svPassRec : CheckRec := ⟨"SyntaxValid", true, none⟩

def tvFailRec (m : String) : CheckRec := ⟨"TemplateValid", false, some m⟩

def tvPassRec : CheckRec := ⟨"TemplateValid", true, none⟩

def svOkResults : PyVal :=
  .pydict [("SyntaxValid", .pydict [("pass", .pybool true)])]

def tvFailVal (m : String) : PyVal :=
  .pydict [("pass", .pybool false), ("reason", .pystr m)]

/-- Linter state right after a passing pre-template syntax check, with the
given current config and trace. -/
def preTplState (cfg2 : PyVal) (tr : List CheckRec) : LintState :=
  { valid := true, results := svOkResults, config := cfg2, trace := tr }

/-- Linter state after `ExpandTemplateVariables` hits a template syntax
error: `TemplateValid` stored failing (the later passing record is merged
away), `valid` false, both `TemplateValid` events in the trace. -/
def tplErrState (cfg2 : PyVal) (tr : List CheckRec) (m : String) : LintState :=
  { valid := false,
    results := .pydict [("SyntaxValid", .pydict [("pass", .pybool true)]),
      ("TemplateValid", tvFailVal m)],
    config := cfg2,
    trace := (tr ++ [tvFailRec m]) ++ [tvPassRec] }

/-- Linter state after `ExpandTemplateVariables` succeeds. -/
def tplOkState (cfg2 : PyVal) (tr : List CheckRec) : LintState :=
  { valid := true,
    results := .pydict [("SyntaxValid", .pydict [("pass", .pybool true)]),
      ("TemplateValid", .pydict [("pass", .pybool true)])],
    config := cfg2,
    trace := tr ++ [tvPassRec] }

/-- Linter state after only the failing `TemplateValid` record. -/
def tplErrMidState (cfg2 : PyVal) (tr : List CheckRec) (m : String) : LintState :=
  { valid := false,
    results := .pydict [("SyntaxValid", .pydict [("pass", .pybool true)]),
      ("TemplateValid", tvFailVal m)],
    config := cfg2,
    trace := tr ++ [tvFailRec m] }

/-- State after the post-template syntax check re-parses the dumped config
following a template syntax error. -/
def postErrState (cfg2 : PyVal) (m : String) : LintState :=
  { valid := false,
    results := .pydict [("SyntaxValid", .pydict [("pass", .pybool true)]),
      ("TemplateValid", tvFailVal m)],
    config := cfg2,
    trace := [svPassRec, tvFailRec m, tvPassRec, svPassRec] }

/-- State after the post-template syntax check parses the rendered text. -/
def postOkState (cfg2 c2 : PyVal) : LintState :=
  { valid := true,
    results := .pydict [("SyntaxValid", .pydict [("pass", .pybool true)]),
      ("TemplateValid", .pydict [("pass", .pybool true)])],
    config := c2,
    trace := [svPassRec, tvPassRec, svPassRec] }

/-- The `SyntaxValid` event the post-template syntax re-check records for a
given re-parse outcome of the rendered text: passing on a parse, failing
with the `PostTemplate: `-prefixed message otherwise. -/
def postTplSyntaxRec : Except String PyVal → CheckRec
  | .ok _ => ⟨"SyntaxValid", true, none⟩
  | .error m2 => ⟨"SyntaxValid", false, some ("PostTemplate: " ++ m2)⟩

/-- State after the post-template syntax check fails to re-parse the
rendered text: the stored `SyntaxValid` entry keeps its earlier passing
`pass` but gains the `PostTemplate: `-prefixed reason, `valid` drops to
false, and the pre-render config is kept. -/
def postOkErrState (cfg2 : PyVal) (m2 : String) : LintState :=
  { valid := false,
    results := .pydict [("SyntaxValid", .pydict [("pass", .pybool true),
      ("reason", .pystr ("PostTemplate: " ++ m2))]),
      ("TemplateValid", .pydict [("pass", .pybool true)])],
    config := cfg2,
    trace := [svPassRec, tvPassRec,
      ⟨"SyntaxValid", false, some ("PostTemplate: " ++ m2)⟩] }

def c5env : LintEnv :=
  { getStage := fun _ => .found none,
    tpl := fun _ _ => .syntaxErr "unexpected end of template",
    appId := "app", hostname := "app.example.com",
    serviceAccountName := "sa@example.com",
    dateYmdDash := "2013-06-06", dateYmd := "20130606" }

def c5cfg : PyVal := .pydict [("options", .pydict [("a", .pyint 1)])]

def c5defaults : PyVal := .pydict [("b", .pyint 2)]

def c5we1 : LintEnv :=
  { getStage := fun _ => .found none,
    tpl := fun _ _ => .syntaxErr "unexpected end of template",
    appId := "app", hostname := "app.example.com",
    serviceAccountName := "sa@example.com",
    dateYmdDash := "2013-06-06", dateYmd := "20130606" }

def c5we2 : LintEnv :=
  { c5we1 with tpl := fun _ _ => .rendered (.ok (.pydict [])) }

def c5wtv : PyVal :=
  .pydict [("b", .pyint 2),
    ("storage", .pydict [("bucket", .pystr ""), ("prefix", .pystr ""),
      ("url", .pystr "gs:///")]),
    ("app", .pydict [("id", .pystr "app"),
      ("hostname", .pystr "app.example.com"),
      ("serviceAccountName", .pystr "sa@example.com")]),
    ("date", .pydict [("y-m-d", .pystr "2013-06-06"),
      ("ymd", .pystr "20130606")])]

/-! ### Well-formedness conditions under which `StageCheck` cannot raise -/

def isDictB : PyVal → Bool
  | .pydict _ => true
  | _ => false

def isListB : PyVal → Bool
  | .pylist _ => true
  | _ => false

/-- The `sources`/`sinks` entry of a stage config, when present, is `null`,
a list or a dict — the shapes `SourceSinkCheck`'s `None not in val` test
accepts without raising. -/
def srcSnkWfB (kvs : List (String × PyVal)) (k : String) : Bool :=
  match lookupKV k kvs with
  | none => true
  | some .pynone => true
  | some (.pylist _) => true
  | some (.pydict _) => true
  | some _ => false

def stageSafeB : PyVal → Bool
  | .pydict kvs => srcSnkWfB kvs "sources" && srcSnkWfB kvs "sinks"
  | _ => false

def stagesListSafeB (v : PyVal) : Bool :=
  match v with
  | .pylist l => l.all stageSafeB
  | _ => false

def catSafeB (kvs : List (String × PyVal)) (cat : String) : Bool :=
  stagesListSafeB ((lookupKV cat kvs).getD (.pylist []))

/-- The non-empty-config half of the `StageCheck` safety condition. -/
def stageCheckCoreSafeB : PyVal → Bool
  | .pydict kvs =>
    catSafeB kvs "inputs" && catSafeB kvs "transforms" && catSafeB kvs "outputs"
  | _ => false

/-- `self.config or {}` can be stage-checked without raising: either the
config is falsy (replaced by `{}`) or it is a dict whose three stage
categories are absent or lists of stage-safe dicts. -/
def stageCheckSafeB (c : PyVal) : Bool :=
  if pyTruthy c then stageCheckCoreSafeB c else true

/-- Results-tree invariant: a dict whose values are all dicts. -/
def resultsDictInvB : PyVal → Bool
  | .pydict kvs => kvs.all (fun kv => isDictB kv.2)
  | _ => false

/-- Shape of the `stages` entry: absent, or a dict of lists. -/
def stagesWfB : Option PyVal → Bool
  | none => true
  | some (.pydict skvs) => skvs.all (fun kv => isListB kv.2)
  | some _ => false

def c2env : LintEnv :=
  { getStage := fun _ => .found none,
    tpl := fun _ _ => .rendered (.ok (.pydict [])),
    appId := "app", hostname := "app.example.com",
    serviceAccountName := "sa@example.com",
    dateYmdDash := "2013-06-06", dateYmd := "20130606" }

def c2wenv : LintEnv :=
  { getStage := fun _ => .found none,
    tpl := fun _ _ => .rendered (.error "nope"),
    appId := "a", hostname := "h", serviceAccountName := "s",
    dateYmdDash := "2014-01-01", dateYmd := "20140101" }

def c2wcfg : PyVal :=
  .pydict [("inputs", .pylist [.pydict [("type", .pystr "GcsInput"),
    ("sinks", .pylist [.pystr "gs://bucket/object"])]])]

/-! ## Theorems -/

theorem cdiv_le_of_le_mul {a b k : Nat} (hb : 0 < b) (h : a ≤ b * k) :
    cdiv a b ≤ k := by
  unfold cdiv
  rw [Nat.div_le_iff_le_mul_add_pred hb]
  omega

theorem le_mul_cdiv {a b : Nat} (hb : 0 < b) : a ≤ b * cdiv a b := by
  have h := (Nat.div_le_iff_le_mul_add_pred hb (a := a + b - 1)
    (c := (a + b - 1) / b)).mp le_rfl
  unfold cdiv
  omega

theorem cdiv_pos {a b : Nat} (ha : 0 < a) (hb : 0 < b) : 0 < cdiv a b := by
  rcases Nat.eq_zero_or_pos (cdiv a b) with h | h
  · have h0 : (a + b - 1) / b ≤ 0 := le_of_eq h
    rw [Nat.div_le_iff_le_mul_add_pred hb] at h0
    omega
  · exact h

/-- The rebalanced size `cdiv n (cdiv n m)` never exceeds `m`. -/
theorem cdiv_cdiv_le {n m : Nat} (hn : 0 < n) (hm : 0 < m) :
    cdiv n (cdiv n m) ≤ m := by
  have hq : 0 < cdiv n m := cdiv_pos hn hm
  exact cdiv_le_of_le_mul hq (by rw [Nat.mul_comm]; exact le_mul_cdiv hm)

theorem takeWhile_append_of_all {α : Type} (p : α → Bool) (xs ys : List α)
    (h : ∀ x ∈ xs, p x = true) :
    (xs ++ ys).takeWhile p = xs ++ ys.takeWhile p := by
  induction xs with
  | nil => rfl
  | cons a t ih =>
      have ha : p a = true := h a (by simp)
      simp [List.takeWhile, ha]
      exact ih (fun x hx => h x (by simp [hx]))

theorem dropWhile_append_of_all {α : Type} (p : α → Bool) (xs ys : List α)
    (h : ∀ x ∈ xs, p x = true) :
    (xs ++ ys).dropWhile p = ys.dropWhile p := by
  induction xs with
  | nil => rfl
  | cons a t ih =>
      have ha : p a = true := h a (by simp)
      simp [List.dropWhile, ha]
      exact ih (fun x hx => h x (by simp [hx]))

theorem chunksOfF_nil {α : Type} (s f : Nat) :
    chunksOfF s f ([] : List α) = [] := by
  cases f <;> rfl

theorem chunksOfF_fuel_irrel {α : Type} (s : Nat) (hs : 0 < s) :
    ∀ (f1 f2 : Nat) (l : List α), l.length ≤ f1 → l.length ≤ f2 →
      chunksOfF s f1 l = chunksOfF s f2 l := by
  intro f1
  induction f1 with
  | zero =>
      intro f2 l hl _
      have : l = [] := List.length_eq_zero.mp (Nat.le_zero.mp hl)
      subst this
      rw [chunksOfF_nil, chunksOfF_nil]
  | succ n ih =>
      intro f2 l hl h2
      match l, f2 with
      | [], f2 => rw [chunksOfF_nil, chunksOfF_nil]
      | x :: t, 0 => simp at h2
      | x :: t, m + 1 =>
          simp only [chunksOfF, if_neg (Nat.pos_iff_ne_zero.mp hs)]
          have hlen : ((x :: t).drop s).length = t.length + 1 - s := by
            simp [List.length_drop]
          have hl' : t.length + 1 ≤ n + 1 := by simpa using hl
          have h2' : t.length + 1 ≤ m + 1 := by simpa using h2
          rw [ih m ((x :: t).drop s) (by omega) (by omega)]

theorem chunksOf_flatten_aux {α : Type} (s : Nat) (hs : 0 < s) :
    ∀ (fuel : Nat) (l : List α), l.length ≤ fuel →
      (chunksOfF s fuel l).flatten = l := by
  intro fuel
  induction fuel with
  | zero =>
      intro l hl
      have : l = [] := List.length_eq_zero.mp (Nat.le_zero.mp hl)
      subst this
      rfl
  | succ n ih =>
      intro l hl
      match l with
      | [] => rfl
      | x :: t =>
          have hl' : t.length + 1 ≤ n + 1 := by simpa using hl
          simp only [chunksOfF, if_neg (Nat.pos_iff_ne_zero.mp hs),
            List.flatten_cons]
          rw [ih ((x :: t).drop s)
            (by simp only [List.length_drop, List.length_cons]; omega)]
          exact List.take_append_drop _ _

theorem chunksOf_flatten {α : Type} (s : Nat) (hs : 0 < s) (l : List α) :
    (chunksOf s l).flatten = l :=
  chunksOf_flatten_aux s hs l.length l le_rfl

theorem chunksOf_mem_length_aux {α : Type} (s : Nat) (hs : 0 < s) :
    ∀ (fuel : Nat) (l : List α), l.length ≤ fuel →
      ∀ c ∈ chunksOfF s fuel l, 1 ≤ c.length ∧ c.length ≤ s := by
  intro fuel
  induction fuel with
  | zero =>
      intro l hl c hc
      have : l = [] := List.length_eq_zero.mp (Nat.le_zero.mp hl)
      subst this
      simp [chunksOfF] at hc
  | succ n ih =>
      intro l hl c hc
      match l with
      | [] => simp [chunksOfF] at hc
      | x :: t =>
          have hl' : t.length + 1 ≤ n + 1 := by simpa using hl
          simp only [chunksOfF, if_neg (Nat.pos_iff_ne_zero.mp hs)] at hc
          rcases List.mem_cons.mp hc with hc | hc
          · subst hc
            simp only [List.length_take, List.length_cons]
            omega
          · exact ih ((x :: t).drop s)
              (by simp only [List.length_drop, List.length_cons]; omega) c hc

theorem chunksOf_mem_length {α : Type} (s : Nat) (hs : 0 < s) (l : List α)
    (c : List α) (hc : c ∈ chunksOf s l) : 1 ≤ c.length ∧ c.length ≤ s :=
  chunksOf_mem_length_aux s hs l.length l le_rfl c hc

theorem chunksOf_length_le_aux {α : Type} (s : Nat) (hs : 0 < s) :
    ∀ (fuel : Nat) (l : List α) (k : Nat), l.length ≤ fuel → l.length ≤ s * k →
      (chunksOfF s fuel l).length ≤ k := by
  intro fuel
  induction fuel with
  | zero =>
      intro l k hl _
      have : l = [] := List.length_eq_zero.mp (Nat.le_zero.mp hl)
      subst this
      exact Nat.zero_le k
  | succ n ih =>
      intro l k hl hk
      match l with
      | [] => exact Nat.zero_le k
      | x :: t =>
          have hl' : t.length + 1 ≤ n + 1 := by simpa using hl
          have hk' : t.length + 1 ≤ s * k := by simpa using hk
          simp only [chunksOfF, if_neg (Nat.pos_iff_ne_zero.mp hs),
            List.length_cons]
          have hkpos : 1 ≤ k := by
            rcases Nat.eq_zero_or_pos k with h0 | h1
            · subst h0
              rw [Nat.mul_zero] at hk'
              omega
            · exact h1
          have hmul : s * k = s * (k - 1) + s := by
            cases k with
            | zero => omega
            | succ j => simp [Nat.mul_succ]
          have hdk : ((x :: t).drop s).length ≤ s * (k - 1) := by
            simp only [List.length_drop, List.length_cons]
            omega
          have hrec := ih ((x :: t).drop s) (k - 1)
            (by simp only [List.length_drop, List.length_cons]; omega) hdk
          omega

/-- The number of chunks is at most `k` whenever `s * k` covers the list. -/
theorem chunksOf_length_le {α : Type} (s : Nat) (hs : 0 < s) (l : List α)
    (k : Nat) (hk : l.length ≤ s * k) : (chunksOf s l).length ≤ k :=
  chunksOf_length_le_aux s hs l.length l k le_rfl hk

theorem shardWalkF_partition (s : Int) (hs : 0 < s) :
    ∀ (fuel : Nat) (pos fin : Int), pos ≤ fin → (fin - pos).toNat ≤ fuel →
      isPartitionFrom fin pos (shardWalkF s fuel pos fin) = true := by
  intro fuel
  induction fuel with
  | zero =>
      intro pos fin hpf hf
      have heq : pos = fin := by omega
      simp only [shardWalkF, isPartitionFrom, heq, decide_eq_true_eq]
  | succ n ih =>
      intro pos fin hpf hf
      by_cases h : pos < fin
      · simp only [shardWalkF, if_pos h]
        rcases le_or_lt s (fin - pos) with hle | hgt
        · have hmin : min s (fin - pos) = s := by omega
          rw [hmin]
          simp only [isPartitionFrom]
          have := ih (pos + s) fin (by omega) (by omega)
          simp only [this]
          simp
          omega
        · have hmin : min s (fin - pos) = fin - pos := by omega
          rw [hmin]
          simp only [isPartitionFrom]
          have hempty : shardWalkF s n (pos + s) fin = [] := by
            cases n with
            | zero => rfl
            | succ m =>
                simp only [shardWalkF, if_neg (by omega : ¬ pos + s < fin)]
          rw [hempty]
          simp only [isPartitionFrom]
          simp
          omega
      · have heq : pos = fin := by omega
        subst heq
        rw [shardWalkF, if_neg (lt_irrefl _)]
        simp [isPartitionFrom]

theorem isPartitionFrom_sum (fin : Int) :
    ∀ (rs : List (Int × Int)) (pos : Int), isPartitionFrom fin pos rs = true →
      (rs.map Prod.snd).sum = fin - pos := by
  intro rs
  induction rs with
  | nil =>
      intro pos h
      simp only [isPartitionFrom, decide_eq_true_eq] at h
      simp
      omega
  | cons a rest ih =>
      intro pos h
      obtain ⟨p, l⟩ := a
      simp only [isPartitionFrom, Bool.and_eq_true, decide_eq_true_eq] at h
      obtain ⟨⟨h1, h2⟩, h3⟩ := h
      have := ih (pos + l) h3
      simp only [List.map_cons, List.sum_cons, this]
      omega

/-- The recorded shard lengths: all shards take the full rebalanced size
except possibly the last, which takes the positive remainder. -/
theorem shardWalkF_lengths (s : Int) (hs : 0 < s) :
    ∀ (fuel : Nat) (pos fin : Int), (fin - pos).toNat ≤ fuel → pos < fin →
      ∃ (k : Nat) (r : Int),
        (shardWalkF s fuel pos fin).map Prod.snd = List.replicate k s ++ [r] ∧
        1 ≤ r ∧ r ≤ s := by
  intro fuel
  induction fuel with
  | zero =>
      intro pos fin hf h
      omega
  | succ n ih =>
      intro pos fin hf h
      simp only [shardWalkF, if_pos h]
      rcases lt_or_le s (fin - pos) with hgt | hle
      · have hmin : min s (fin - pos) = s := by omega
        rw [hmin]
        obtain ⟨k, r, heq, hr1, hr2⟩ := ih (pos + s) fin (by omega) (by omega)
        exact ⟨k + 1, r, by simp [heq, List.replicate_succ], hr1, hr2⟩
      · have hmin : min s (fin - pos) = fin - pos := by omega
        rw [hmin]
        have hempty : shardWalkF s n (pos + s) fin = [] := by
          cases n with
          | zero => rfl
          | succ m =>
              simp only [shardWalkF, if_neg (by omega : ¬ pos + s < fin)]
        rw [hempty]
        exact ⟨0, fin - pos, by simp, by omega, by omega⟩

theorem mkShardSinks_ok (uuid : Nat → String) (pfx : String)
    (sinks : List String)
    (h : ∀ u ∈ sinks, (urlToBucketAndName u).isOk = true) :
    ∀ c, ∃ out c2, mkShardSinks uuid pfx sinks c = .ok (out, c2) := by
  induction sinks with
  | nil => intro c; exact ⟨[], c, rfl⟩
  | cons s0 rest ih =>
      intro c
      have h0 : (urlToBucketAndName s0).isOk = true := h s0 (by simp)
      obtain ⟨bo, hbo⟩ : ∃ bo, urlToBucketAndName s0 = .ok bo := by
        cases hu : urlToBucketAndName s0 with
        | ok v => exact ⟨v, rfl⟩
        | error e => rw [hu] at h0; simp [Except.isOk, Except.toBool] at h0
      obtain ⟨out, c2, hrest⟩ := ih (fun u hu => h u (by simp [hu])) (c + 1)
      refine ⟨urlCreatorCall bo.1 (bo.2 ++ "/" ++ pfx) (uuid c) :: out, c2, ?_⟩
      simp only [mkShardSinks, hbo, hrest]
      rfl

theorem mkShards_ok (uuid : Nat → String) (pfx : String) (sinks : List String)
    (base : SConfig)
    (h : ∀ u ∈ sinks, (urlToBucketAndName u).isOk = true) :
    ∀ (ranges : List (Int × Int)) (c : Nat),
      ∃ shards c2, mkShards uuid pfx sinks base ranges c = .ok (shards, c2) ∧
        shards.map (fun sc => (sc.start, sc.length)) = ranges ∧
        shards.map SConfig.length = ranges.map Prod.snd := by
  intro ranges
  induction ranges with
  | nil => intro c; exact ⟨[], c, rfl, rfl, rfl⟩
  | cons a rest ih =>
      intro c
      obtain ⟨p, l⟩ := a
      obtain ⟨out, c2, h1⟩ := mkShardSinks_ok uuid pfx sinks h c
      obtain ⟨shards, c3, h2, h3, h4⟩ := ih c2
      refine ⟨{ base with start := p, length := l, sinks := some out } :: shards,
        c3, ?_, ?_, ?_⟩
      · simp only [mkShards, h1]
        show (mkShards uuid pfx sinks base rest c2).bind _ = _
        rw [h2]
        rfl
      · simp [h3]
      · simp [h4]

theorem takeWhile_all {α : Type} (p : α → Bool) (l : List α)
    (h : ∀ x ∈ l, p x = true) : l.takeWhile p = l := by
  have := takeWhile_append_of_all p l [] h
  simpa using this

/-- C9: concatenating the chunks yielded by `SplitEvenly(arr, max_size)` in
order gives back exactly `arr`, and every chunk has between 1 and `max_size`
elements. -/
theorem c9_split_evenly_partition {α : Type} (arr : List α) (maxSize : Nat)
    (h : 1 ≤ maxSize) :
    (splitEvenly arr maxSize).flatten = arr ∧
    ∀ c ∈ splitEvenly arr maxSize, 1 ≤ c.length ∧ c.length ≤ maxSize := by
  unfold splitEvenly
  by_cases ha : arr.length < 1
  · have : arr = [] := List.length_eq_zero.mp (by omega)
    subst this
    simp
  · have hn : 0 < arr.length := by omega
    have hq : 0 < cdiv arr.length maxSize := cdiv_pos hn h
    have hs : 0 < cdiv arr.length (cdiv arr.length maxSize) := cdiv_pos hn hq
    rw [if_neg ha]
    refine ⟨chunksOf_flatten _ hs arr, ?_⟩
    intro c hc
    have hcl := chunksOf_mem_length _ hs arr c hc
    have hles : cdiv arr.length (cdiv arr.length maxSize) ≤ maxSize :=
      cdiv_cdiv_le hn h
    omega

theorem c9_witness :
    (splitEvenly (List.range 11) 5).flatten = List.range 11 ∧
    ∀ c ∈ splitEvenly (List.range 11) 5, 1 ≤ c.length ∧ c.length ≤ 5 :=
  c9_split_evenly_partition (List.range 11) 5 (by decide)

/-- C10: `UrlToBucketAndName` raises `ValueError` for every URL whose parsed
scheme is not `gs` (including a missing scheme, which parses as the empty
scheme), and maps `gs://bucket/name` to `(bucket, name)` with the leading
slash stripped from the object name. -/
theorem c10_url_to_bucket_and_name (url bucket name : String)
    (hb : ∀ c ∈ bucket.toList, c ≠ '/' ∧ c ≠ '?' ∧ c ≠ '#')
    (hn : ∀ c ∈ name.toList, c ≠ '?' ∧ c ≠ '#') :
    ((pyUrlsplit url).scheme ≠ "gs".toList →
      ∃ e, urlToBucketAndName url = .error e) ∧
    urlToBucketAndName ("gs://" ++ bucket ++ "/" ++ name) = .ok (bucket, name) := by
  constructor
  · intro hne
    unfold urlToBucketAndName
    rw [if_pos]
    · exact ⟨_, rfl⟩
    · simp only [Bool.or_eq_true, decide_eq_true_eq, List.isEmpty_iff]
      exact Or.inr hne
  · obtain ⟨bl⟩ := bucket
    obtain ⟨nl⟩ := name
    simp only [String.toList] at hb hn
    have hurl : ("gs://" ++ ⟨bl⟩ ++ "/" ++ (⟨nl⟩ : String)).toList =
        'g' :: 's' :: ':' :: '/' :: '/' :: (bl ++ '/' :: nl) := by
      simp [String.toList, String.data_append]
    set L := 'g' :: 's' :: ':' :: '/' :: '/' :: (bl ++ '/' :: nl) with hL
    have hbefore : urlBefore L = ['g', 's'] := by
      simp [urlBefore, hL, List.takeWhile]
    have hok : urlSchemeOk L = true := by
      rw [urlSchemeOk, hbefore]
      simp only [List.length_cons, List.length_nil, hL, List.drop_succ_cons,
        List.drop_zero, List.all_cons]
      simp [Char.isDigit, schemeChar]
    have hafter : urlAfterScheme L = '/' :: '/' :: (bl ++ '/' :: nl) := by
      rw [urlAfterScheme, if_pos hok, hbefore]
      simp [hL]
    have hhn : urlHasNetloc L = true := by
      rw [urlHasNetloc, hafter]
      rfl
    have hblall : ∀ x ∈ bl, nlPred x = true := by
      intro x hx
      obtain ⟨h1, h2, h3⟩ := hb x hx
      simp [nlPred, h1, h2, h3]
    have hnet : urlNetloc L = bl := by
      rw [urlNetloc, if_pos hhn, hafter]
      simp only [List.drop_succ_cons, List.drop_zero]
      rw [takeWhile_append_of_all _ bl _ hblall]
      simp [List.takeWhile, nlPred]
    have hafter2 : urlAfterNetloc L = '/' :: nl := by
      rw [urlAfterNetloc, if_pos hhn, hafter]
      simp only [List.drop_succ_cons, List.drop_zero]
      rw [dropWhile_append_of_all _ bl _ hblall]
      simp [List.dropWhile, nlPred]
    have hinner : ('/' :: nl).takeWhile (fun c => decide (c ≠ '#')) =
        '/' :: nl := by
      apply takeWhile_all
      intro x hx
      rcases List.mem_cons.mp hx with hx | hx
      · simp [hx]
      · have := (hn x hx).2
        simp [this]
    have houter : ('/' :: nl).takeWhile (fun c => decide (c ≠ '?')) =
        '/' :: nl := by
      apply takeWhile_all
      intro x hx
      rcases List.mem_cons.mp hx with hx | hx
      · simp [hx]
      · have := (hn x hx).1
        simp [this]
    have hpath : urlPath L = '/' :: nl := by
      rw [urlPath, hafter2, hinner, houter]
    have hscheme : urlScheme L = ['g', 's'] := by
      rw [urlScheme, if_pos hok, hbefore]
      rfl
    have hsplit : pyUrlsplit ("gs://" ++ ⟨bl⟩ ++ "/" ++ (⟨nl⟩ : String)) =
        { scheme := ['g', 's'], netloc := bl, path := '/' :: nl } := by
      rw [pyUrlsplit, hurl]
      rw [pyUrlsplitAux, hscheme, hnet, hpath]
    rw [urlToBucketAndName]
    rw [hsplit]
    rfl

theorem c10_witness :
    ((pyUrlsplit "http://b/o").scheme ≠ "gs".toList →
      ∃ e, urlToBucketAndName "http://b/o" = .error e) ∧
    urlToBucketAndName ("gs://" ++ "b" ++ "/" ++ "o/p") = .ok ("b", "o/p") :=
  c10_url_to_bucket_and_name "http://b/o" "b" "o/p" (by decide) (by decide)

/-- C1 (counterexample): at `start=0, length=10, shardSize=4` the planner
produces shards of lengths `[4, 4, 2]`, so the shard lengths are *not* all
within 1 of each other (4 and 2 differ by 2), refuting the claim as stated. -/
theorem c1_counterexample :
    ∃ shards comps, (shardStage demoUuid c1cfg).2 = .ok (shards, comps) ∧
      shards.map SConfig.length = [4, 4, 2] ∧
      ((shards.map SConfig.length).all (fun a =>
        (shards.map SConfig.length).all (fun b => (a - b).natAbs ≤ 1))) =
        false :=
  ⟨_, _, rfl, by decide, by decide⟩

/-- C1 (amended): for `start ≥ 0` and `length > shardSize ≥ 1` (with sinks
present and parseable), the shard set sums exactly to `length` and its ranges
partition `[start, start+length)` contiguously in ascending order; the shard
lengths are the rebalanced size `ceil(length/ceil(length/shardSize))` for
every shard except the last, whose length is between 1 and that size (they
are *not* always within 1 of each other). -/
theorem c1_shard_partition_amended (uuid : Nat → String) (cfg : SConfig)
    (sl : List String)
    (hstart : 0 ≤ cfg.start) (hss : 1 ≤ cfg.shardSize)
    (hlen : cfg.shardSize < cfg.length)
    (hsinks : cfg.sinks = some sl)
    (hparse : ∀ u ∈ sl, (urlToBucketAndName u).isOk = true) :
    ∃ shards comps,
      (shardStage uuid cfg).2 = .ok (shards, comps) ∧
      (shards.map SConfig.length).sum = cfg.length ∧
      isPartitionFrom (cfg.start + cfg.length) cfg.start
        (shards.map (fun sc => (sc.start, sc.length))) = true ∧
      ∃ k r, shards.map SConfig.length =
        List.replicate k (rebalancedShardSize cfg.length cfg.shardSize) ++
          [r] ∧
        1 ≤ r ∧ r ≤ rebalancedShardSize cfg.length cfg.shardSize := by
  have hcond : ¬ (cfg.shardSize < 1 ∨ cfg.length ≤ cfg.shardSize) := by omega
  have hLpos : (0 : Int) < cfg.length := by omega
  have hLt : 0 < cfg.length.toNat := by omega
  have hSt : 0 < cfg.shardSize.toNat := by omega
  have hspos : (0 : Int) < rebalancedShardSize cfg.length cfg.shardSize := by
    unfold rebalancedShardSize
    exact Int.ofNat_pos.mpr (cdiv_pos hLt (cdiv_pos hLt hSt))
  obtain ⟨shards, c2, hmk, hmap, hlens⟩ :=
    mkShards_ok uuid cfg.shardPfx sl
      { cfg with shardSize := rebalancedShardSize cfg.length cfg.shardSize }
      hparse
      (shardWalkF (rebalancedShardSize cfg.length cfg.shardSize)
        cfg.length.toNat cfg.start (cfg.start + cfg.length)) 0
  rw [hsinks] at hmk
  have hfuel : (cfg.start + cfg.length - cfg.start).toNat ≤
      cfg.length.toNat := by omega
  have hple : cfg.start ≤ cfg.start + cfg.length := by omega
  have hpart := shardWalkF_partition
    (rebalancedShardSize cfg.length cfg.shardSize) hspos cfg.length.toNat
    cfg.start (cfg.start + cfg.length) hple hfuel
  have hsum0 := isPartitionFrom_sum (cfg.start + cfg.length)
    (shardWalkF (rebalancedShardSize cfg.length cfg.shardSize)
      cfg.length.toNat cfg.start (cfg.start + cfg.length)) cfg.start hpart
  obtain ⟨k, r, hshape, hr1, hr2⟩ := shardWalkF_lengths
    (rebalancedShardSize cfg.length cfg.shardSize) hspos cfg.length.toNat
    cfg.start (cfg.start + cfg.length) hfuel (by omega)
  refine ⟨shards,
    mkCompositors (cfg.contentType.getD "binary/octet-stream") sl
      (shards.map (fun sc => sc.sinks.getD [])), ?_, ?_, ?_, ?_⟩
  · unfold shardStage
    rw [if_neg hcond]
    simp only [hsinks]
    rw [hmk]
  · rw [hlens, hsum0]
    omega
  · rw [hmap]
    exact hpart
  · exact ⟨k, r, by rw [hlens]; exact hshape, hr1, hr2⟩

theorem c1_witness :
    ∃ shards comps,
      (shardStage demoUuid c1cfg).2 = .ok (shards, comps) ∧
      (shards.map SConfig.length).sum = c1cfg.length ∧
      isPartitionFrom (c1cfg.start + c1cfg.length) c1cfg.start
        (shards.map (fun sc => (sc.start, sc.length))) = true ∧
      ∃ k r, shards.map SConfig.length =
        List.replicate k (rebalancedShardSize c1cfg.length c1cfg.shardSize) ++
          [r] ∧
        1 ≤ r ∧ r ≤ rebalancedShardSize c1cfg.length c1cfg.shardSize :=
  c1_shard_partition_amended demoUuid c1cfg ["gs://b/o"] (by decide)
    (by decide) (by decide) (by decide) (by decide)

/-- C7 (counterexample): the planner is *not* free of side effects on the
job config: for `length=11, shardSize=5` it overwrites the caller's
`shardSize` entry with the rebalanced value 4. -/
theorem c7_counterexample : (shardStage demoUuid c7cfg).1 ≠ c7cfg := by
  decide

/-- C7 (amended): the planner performs no store I/O (it is a pure function
of the config in this embedding) and leaves every config entry unchanged
*except* `shardSize`: when the job is actually sharded
(`shardSize ≥ 1` and `length > shardSize`) the caller's mapping comes back
with `shardSize` overwritten by the rebalanced shard size, and otherwise
unchanged. -/
theorem c7_frame_amended (uuid : Nat → String) (cfg : SConfig) :
    (shardStage uuid cfg).1 =
      if cfg.shardSize < 1 ∨ cfg.length ≤ cfg.shardSize then cfg
      else
        { cfg with
          shardSize := rebalancedShardSize cfg.length cfg.shardSize } := by
  by_cases h : cfg.shardSize < 1 ∨ cfg.length ≤ cfg.shardSize
  · simp [shardStage, h]
  · rw [if_neg h]
    unfold shardStage
    rw [if_neg h]
    cases hs : cfg.sinks with
    | none => rfl
    | some sl =>
        simp only
        split <;> rfl

theorem except_bind_ok {α β : Type} (a : α) (f : α → Except String β) :
    (Except.ok a : Except String α) >>= f = f a := rfl

theorem except_bind_err {α β : Type} (e : String)
    (f : α → Except String β) :
    (Except.error e : Except String α) >>= f = .error e := rfl

/-- The direct branches (`|sources| < 1` and `|sources| ≤ 32`) always
succeed. -/
theorem composeObjects_ok_small (uuid : Nat → String) (bucket ct : String)
    (fuel : Nat) (hf : 1 ≤ fuel) (st : GcsState) (srcs : List String)
    (dest : String) (hn : srcs.length ≤ 32) :
    ∃ st2, composeObjects uuid bucket ct fuel st srcs dest = .ok st2 := by
  obtain ⟨f, rfl⟩ : ∃ f, fuel = f + 1 := ⟨fuel - 1, by omega⟩
  rw [composeObjects]
  by_cases h0 : srcs.length < 1
  · rw [if_pos h0]
    exact ⟨st, rfl⟩
  · rw [if_neg h0, if_pos hn]
    exact ⟨_, rfl⟩

/-- The temp-creation loops succeed whenever every chunk's compose succeeds;
the collected names are the fresh uuid strings, in order. -/
theorem composeChunks_ok (uuid : Nat → String) (bucket ct : String)
    (hu : ∀ k, urlToBucketAndName (urlCreatorCall bucket "" (uuid k)) =
      .ok (bucket, uuid k)) (fuel : Nat) :
    ∀ (chunks : List (List String)),
      (∀ c ∈ chunks, ∀ (st2 : GcsState) (d : String),
        ∃ st3, composeObjects uuid bucket ct fuel st2 c d = .ok st3) →
    ∀ (st : GcsState) (acc : List String),
      ∃ st2 acc2,
        composeChunks uuid bucket ct fuel chunks st acc = .ok (st2, acc2) ∧
        acc2.length = acc.length + chunks.length ∧
        ∀ nm ∈ acc2, nm ∈ acc ∨ ∃ k, nm = uuid k := by
  intro chunks
  induction chunks with
  | nil =>
      intro _ st acc
      exact ⟨st, acc, by rw [composeChunks], by simp, fun nm h => Or.inl h⟩
  | cons c rest ih =>
      intro hall st acc
      obtain ⟨st3, hcomp⟩ := hall c (by simp) { st with ctr := st.ctr + 1 }
        (uuid st.ctr)
      obtain ⟨st4, acc4, hrec, hl, hmem⟩ :=
        ih (fun c2 hc2 => hall c2 (by simp [hc2])) st3 (acc ++ [uuid st.ctr])
      refine ⟨st4, acc4, ?_, by simp at hl ⊢; omega, ?_⟩
      · rw [composeChunks]
        rw [hu st.ctr, except_bind_ok]
        simp only
        rw [hcomp, except_bind_ok]
        exact hrec
      · intro nm hnm
        rcases hmem nm hnm with h | h
        · rcases List.mem_append.mp h with h | h
          · exact Or.inl h
          · exact Or.inr ⟨st.ctr, by simpa using h⟩
        · exact Or.inr h

/-- The middle branch (`33 ≤ |sources| ≤ 1024`) always succeeds given two
levels of call depth. -/
theorem composeObjects_ok_mid (uuid : Nat → String) (bucket ct : String)
    (hu : ∀ k, urlToBucketAndName (urlCreatorCall bucket "" (uuid k)) =
      .ok (bucket, uuid k)) (fuel : Nat) (hf : 2 ≤ fuel) (st : GcsState)
    (srcs : List String) (dest : String) (hn : srcs.length ≤ 1024) :
    ∃ st2, composeObjects uuid bucket ct fuel st srcs dest = .ok st2 := by
  rcases le_or_lt srcs.length 32 with h32 | h32
  · exact composeObjects_ok_small uuid bucket ct fuel (by omega) st srcs
      dest h32
  obtain ⟨f, rfl⟩ : ∃ f, fuel = f + 1 := ⟨fuel - 1, by omega⟩
  have hff : 1 ≤ f := by omega
  have hnp : 0 < srcs.length := by omega
  have hq : 0 < cdiv srcs.length 32 := cdiv_pos hnp (by omega)
  have hs : 0 < cdiv srcs.length (cdiv srcs.length 32) := cdiv_pos hnp hq
  have hsle : cdiv srcs.length (cdiv srcs.length 32) ≤ 32 :=
    cdiv_cdiv_le hnp (by omega)
  have hchunklen : ∀ c ∈ splitEvenly srcs 32, c.length ≤ 32 := by
    intro c hc
    rw [splitEvenly, if_neg (by omega)] at hc
    have := chunksOf_mem_length _ hs srcs c hc
    omega
  obtain ⟨st2, acc2, hchunks, hlen, hmem⟩ :=
    composeChunks_ok uuid bucket ct hu f (splitEvenly srcs 32)
      (fun c hc st2 d => composeObjects_ok_small uuid bucket ct f hff st2 c d
        (hchunklen c hc)) st []
  have hcount : (splitEvenly srcs 32).length ≤ 32 := by
    rw [splitEvenly, if_neg (by omega)]
    apply chunksOf_length_le _ hs
    have h1 : srcs.length ≤ cdiv srcs.length 32 *
        cdiv srcs.length (cdiv srcs.length 32) := le_mul_cdiv hq
    have h2 : cdiv srcs.length 32 ≤ 32 :=
      cdiv_le_of_le_mul (by omega) (by omega)
    calc srcs.length ≤ cdiv srcs.length 32 *
          cdiv srcs.length (cdiv srcs.length 32) := h1
      _ ≤ 32 * cdiv srcs.length (cdiv srcs.length 32) :=
          Nat.mul_le_mul_right _ h2
      _ = cdiv srcs.length (cdiv srcs.length 32) * 32 := Nat.mul_comm _ _
  have hacc2 : acc2.length ≤ 32 := by
    simp at hlen
    omega
  obtain ⟨st3, hfinal⟩ := composeObjects_ok_small uuid bucket ct f hff st2
    acc2 dest hacc2
  refine ⟨{ st3 with store := acc2.foldl storeDel st3.store }, ?_⟩
  rw [composeObjects]
  rw [if_neg (by omega), if_neg (by omega), if_pos hn]
  rw [hchunks, except_bind_ok]
  simp only
  rw [hfinal, except_bind_ok]

theorem splitEvenly_ne_nil {α : Type} (arr : List α) (maxSize : Nat)
    (hm : 1 ≤ maxSize) (ha : arr ≠ []) : splitEvenly arr maxSize ≠ [] := by
  cases arr with
  | nil => exact absurd rfl ha
  | cons x t =>
      have hnp : 0 < (x :: t).length := by simp
      have hs : 0 < cdiv (x :: t).length (cdiv (x :: t).length maxSize) :=
        cdiv_pos hnp (cdiv_pos hnp hm)
      rw [splitEvenly, if_neg (by omega)]
      rw [chunksOf]
      simp only [List.length_cons] at hs ⊢
      simp only [chunksOfF, if_neg (Nat.pos_iff_ne_zero.mp hs)]
      simp

/-- C3 (code bug): with more than `MAX_TOTAL_COMPOSABLE_OBJECTS` (1024)
sources, `ComposeObjects` never reaches the claimed flatten-and-recompose
behaviour: the flatten loop calls `self.MakeUrl(*dest_obj)`, unpacking the
temp object *name* (a 36-character uuid string) into `MakeUrl`'s two
parameters, which raises `TypeError`.  (The final compose also targets the
shadowed loop variable `dest_obj` — the last temp name — rather than the
destination.) -/
theorem c3_compose_over_total_limit_raises (uuid : Nat → String)
    (bucket ct dest : String) (st : GcsState) (srcs : List String)
    (fuel : Nat) (hf : 3 ≤ fuel) (hn : 1024 < srcs.length)
    (hu : ∀ k, urlToBucketAndName (urlCreatorCall bucket "" (uuid k)) =
      .ok (bucket, uuid k))
    (hlen2 : ∀ k, (uuid k).length ≠ 2) :
    composeObjects uuid bucket ct fuel st srcs dest =
      .error "TypeError: MakeUrl() takes exactly 2 arguments" := by
  obtain ⟨f, rfl⟩ : ∃ f, fuel = f + 1 := ⟨fuel - 1, by omega⟩
  have hff : 2 ≤ f := by omega
  have hnp : 0 < srcs.length := by omega
  have hq : 0 < cdiv srcs.length 1024 := cdiv_pos hnp (by omega)
  have hs : 0 < cdiv srcs.length (cdiv srcs.length 1024) := cdiv_pos hnp hq
  have hsle : cdiv srcs.length (cdiv srcs.length 1024) ≤ 1024 :=
    cdiv_cdiv_le hnp (by omega)
  have hchunklen : ∀ c ∈ splitEvenly srcs 1024, c.length ≤ 1024 := by
    intro c hc
    rw [splitEvenly, if_neg (by omega)] at hc
    have := chunksOf_mem_length _ hs srcs c hc
    omega
  obtain ⟨st2, acc2, hchunks, hlen, hmem⟩ :=
    composeChunks_ok uuid bucket ct hu f (splitEvenly srcs 1024)
      (fun c hc st2 d => composeObjects_ok_mid uuid bucket ct hu f hff st2 c
        d (hchunklen c hc)) st []
  have hne : splitEvenly srcs 1024 ≠ [] :=
    splitEvenly_ne_nil srcs 1024 (by omega)
      (by intro h0; rw [h0] at hnp; simp at hnp)
  have hacc2ne : acc2 ≠ [] := by
    intro h0
    rw [h0] at hlen
    simp at hlen
    exact hne (List.length_eq_zero.mp hlen.symm)
  obtain ⟨nm, rest, rfl⟩ : ∃ nm rest, acc2 = nm :: rest := by
    cases acc2 with
    | nil => exact absurd rfl hacc2ne
    | cons a r => exact ⟨a, r, rfl⟩
  obtain ⟨k, hk⟩ : ∃ k, nm = uuid k := by
    rcases hmem nm (by simp) with h | h
    · simp at h
    · exact h
  have htl : nm.toList.length ≠ 2 := by
    rw [hk]
    exact hlen2 k
  have hflat : flattenTmps (nm :: rest) st2 =
      .error "TypeError: MakeUrl() takes exactly 2 arguments" := by
    rw [flattenTmps]
    cases hnml : nm.toList with
    | nil => rfl
    | cons a tl2 =>
        cases tl2 with
        | nil => rfl
        | cons b tl3 =>
            cases tl3 with
            | nil =>
                rw [hnml] at htl
                simp at htl
            | cons cc tl4 => rfl
  rw [composeObjects]
  rw [if_neg (by omega), if_neg (by omega), if_neg (by omega)]
  rw [hchunks, except_bind_ok]
  simp only
  rw [hflat, except_bind_err]

theorem c3_witness :
    composeObjects c3uuid "b" "text/plain" 3 ⟨[], 0⟩
        (List.replicate 1025 "s") "d" =
      .error "TypeError: MakeUrl() takes exactly 2 arguments" :=
  c3_compose_over_total_limit_raises c3uuid "b" "text/plain" "d" ⟨[], 0⟩
    (List.replicate 1025 "s") 3 (by decide)
    (by rw [List.length_replicate]; omega)
    (fun _ => by rfl)
    (fun _ => by unfold c3uuid; decide)

/-- C4 (code bug): `TransformRow` *does* raise for a TIMESTAMP cell that
`parsedatetime` parses as a combined datetime (kind 3):
`NormalizeTimeStamp` assigns the result *kind* (the int 3) to `dt`
(`dt = pdt_result_type`, timestamp.py line 126) and `dt.strftime(...)` then
raises `AttributeError`, which is neither a `ValueError` nor a `CellError`
and so escapes `TransformRow` instead of being recorded as a cell error. -/
theorem c4_transform_row_raises_on_pdt_datetime :
    transformRow c4env ["tomorrow 10pm"]
      [{ type := ColumnTypes.TIMESTAMP, wanted := true }] =
      .error (.attributeError "int object has no attribute strftime") := rfl

/-- C8: `NormalizeCellByType` behaves as specified on the claimed cases
(empty cell, the BOOLEAN truth values, `'ark'` for
BOOLEAN/INTEGER/FLOAT/TIMESTAMP, and the TIMESTAMP rendering of
`'2013-06-06'` with its trailing space), for every collaborator instance in
which `parsedatetime` does not parse `'ark'` as a date, time or datetime;
and for BOOLEAN the `CellError` arises on *every* non-empty cell other
than the accepted truth spellings (case-insensitive `true`/`1` and
`false`/`0`), not just on `'ark'`. -/
theorem c8_normalize_cell_cases (env : TransformEnv)
    (h1 : (env.pdtParse "ark").2 ≠ 1) (h2 : (env.pdtParse "ark").2 ≠ 2)
    (h3 : (env.pdtParse "ark").2 ≠ 3) :
    (∀ t idx, normalizeCellByType env "" idx t = .ok "") ∧
    normalizeCellByType env "true" 0 ColumnTypes.BOOLEAN = .ok "True" ∧
    normalizeCellByType env "TRUE" 0 ColumnTypes.BOOLEAN = .ok "True" ∧
    normalizeCellByType env "1" 0 ColumnTypes.BOOLEAN = .ok "True" ∧
    normalizeCellByType env "False" 0 ColumnTypes.BOOLEAN = .ok "False" ∧
    normalizeCellByType env "0" 0 ColumnTypes.BOOLEAN = .ok "False" ∧
    (∃ m v i, normalizeCellByType env "ark" 0 ColumnTypes.BOOLEAN =
      .error (.cellError m v i)) ∧
    (∃ m v i, normalizeCellByType env "ark" 0 ColumnTypes.INTEGER =
      .error (.cellError m v i)) ∧
    (∃ m v i, normalizeCellByType env "ark" 0 ColumnTypes.FLOAT =
      .error (.cellError m v i)) ∧
    (∃ m v i, normalizeCellByType env "ark" 0 ColumnTypes.TIMESTAMP =
      .error (.cellError m v i)) ∧
    normalizeCellByType env "2013-06-06" 0 ColumnTypes.TIMESTAMP =
      .ok "2013-06-06 00:00:00.000000 " ∧
    (∀ cell idx, cell.isEmpty = false →
      pyLower cell ≠ "true" → pyLower cell ≠ "1" →
      pyLower cell ≠ "false" → pyLower cell ≠ "0" →
      ∃ m v i, normalizeCellByType env cell idx ColumnTypes.BOOLEAN =
        .error (.cellError m v i)) := by
  refine ⟨fun t idx => rfl, rfl, rfl, rfl, rfl, rfl, ⟨_, _, _, rfl⟩,
    ⟨_, _, _, rfl⟩, ⟨_, _, _, rfl⟩, ?_, ?_, ?_⟩
  · have h0 : normalizeCellByType env "ark" 0 ColumnTypes.TIMESTAMP =
        (match tsRender (tsCanon "ark")
            (tsPdtPhase env (tsCanon "ark") none) with
         | .ok v => (.ok v : Except PyErr String)
         | .error (.valueError m) => .error (.cellError
             ("Invalid value 'ark' for column type TIMESTAMP: " ++ m)
             (some "ark") (some 0))
         | .error e => .error e) := rfl
    rw [h0]
    unfold tsPdtPhase
    simp only [show tsCanon "ark" = "ark" from rfl]
    rw [if_neg (fun hor => hor.elim (fun h => h1 h) (fun h => h2 h)),
      if_neg h3]
    exact ⟨_, _, _, rfl⟩
  · have h0 : normalizeCellByType env "2013-06-06" 0 ColumnTypes.TIMESTAMP =
        (match tsRender (tsCanon "2013-06-06")
            (tsPdtPhase env (tsCanon "2013-06-06")
              (some { year := 2013, month := 6, day := 6 })) with
         | .ok v => (.ok v : Except PyErr String)
         | .error (.valueError m) => .error (.cellError
             ("Invalid value '2013-06-06' for column type TIMESTAMP: " ++ m)
             (some "2013-06-06") (some 0))
         | .error e => .error e) := rfl
    rw [h0]
    rfl
  · intro cell idx hne h1 h2 h3 h4
    have h0 : normalizeCellByType env cell idx ColumnTypes.BOOLEAN =
        (if cell.isEmpty then .ok "" else
          match (if pyLower cell = "true" ∨ pyLower cell = "1" then
              (.ok "True" : Except PyErr String)
            else if pyLower cell = "false" ∨ pyLower cell = "0" then .ok "False"
            else .error (.valueError "invalid value")) with
         | .ok v => (.ok v : Except PyErr String)
         | .error (.valueError m) => .error (.cellError
             ("Invalid value '" ++ cell ++ "' for column type " ++
               columnTypeName ColumnTypes.BOOLEAN ++ ": " ++ m)
             (some cell) (some idx))
         | .error e => .error e) := rfl
    refine ⟨"Invalid value '" ++ cell ++ "' for column type " ++
        columnTypeName ColumnTypes.BOOLEAN ++ ": " ++ "invalid value",
      some cell, some idx, ?_⟩
    rw [h0, if_neg (by simp [hne]), if_neg (fun hor => hor.elim h1 h2),
      if_neg (fun hor => hor.elim h3 h4)]

theorem c8_witness :
    ((c8env.pdtParse "ark").2 ≠ 1 ∧ (c8env.pdtParse "ark").2 ≠ 2 ∧
      (c8env.pdtParse "ark").2 ≠ 3) ∧
    normalizeCellByType c8env "" 0 ColumnTypes.TIMESTAMP = .ok "" ∧
    normalizeCellByType c8env "true" 0 ColumnTypes.BOOLEAN = .ok "True" ∧
    (∃ m v i, normalizeCellByType c8env "ark" 0 ColumnTypes.TIMESTAMP =
      .error (.cellError m v i)) ∧
    normalizeCellByType c8env "2013-06-06" 0 ColumnTypes.TIMESTAMP =
      .ok "2013-06-06 00:00:00.000000 " ∧
    (∃ m v i, normalizeCellByType c8env "maybe" 7 ColumnTypes.BOOLEAN =
      .error (.cellError m v i)) := by
  have h := c8_normalize_cell_cases c8env (by decide) (by decide) (by decide)
  exact ⟨⟨by decide, by decide, by decide⟩, h.1 ColumnTypes.TIMESTAMP 0,
    h.2.1, h.2.2.2.2.2.2.2.2.2.1, h.2.2.2.2.2.2.2.2.2.2.1,
    h.2.2.2.2.2.2.2.2.2.2.2 "maybe" 7 (by decide) (by decide) (by decide)
      (by decide) (by decide)⟩

theorem lookupKV_dictSet_self (kvs : List (String × PyVal)) (k : String) (v : PyVal) :
    lookupKV k (dictSet kvs k v) = some v := by
  induction kvs with
  | nil => simp [dictSet, lookupKV]
  | cons kv rest ih =>
    obtain ⟨k', v'⟩ := kv
    by_cases h : k' = k
    · simp [dictSet, h, lookupKV]
    · simp [dictSet, h, lookupKV, ih]

theorem lookupKV_dictSet_ne (kvs : List (String × PyVal)) (k k' : String) (v : PyVal)
    (h : k' ≠ k) : lookupKV k' (dictSet kvs k v) = lookupKV k' kvs := by
  have h2 : ¬(k = k') := fun hh => h hh.symm
  induction kvs with
  | nil => simp [dictSet, lookupKV, h2]
  | cons kv rest ih =>
    obtain ⟨k0, v0⟩ := kv
    by_cases h0 : k0 = k
    · subst h0
      simp [dictSet, lookupKV, h2]
    · simp [dictSet, h0, lookupKV, ih]

/-- A single-entry `UpdateNestedDict` merge with a dict value into a
non-dict master never succeeds. -/
theorem undItems_single_nondict {m : PyVal} {n : String}
    {vk : List (String × PyVal)} {res : PyVal}
    (hm : ∀ mk, m ≠ PyVal.pydict mk)
    (h : undItems m [(n, .pydict vk)] = .ok res) : False := by
  cases m with
  | pydict mk => exact hm mk rfl
  | pynone => simp [undItems, pyContains] at h
  | pybool b => simp [undItems, pyContains] at h
  | pyint i => simp [undItems, pyContains] at h
  | pystr s =>
    simp only [undItems, pyContains] at h
    split at h
    · simp [pyGetItem] at h
    · simp [pySetItem] at h
  | pylist l =>
    simp only [undItems, pyContains] at h
    split at h
    · simp [pyGetItem] at h
    · simp [pySetItem] at h

/-- A successful single-entry `UpdateNestedDict` merge of a dict value
leaves every other key of the master dict unchanged. -/
theorem undItems_single_lookup {mk : List (String × PyVal)} {n : String}
    {v res : PyVal} (hv : ∃ vk, v = PyVal.pydict vk)
    (h : undItems (.pydict mk) [(n, v)] = .ok res) (k : String) (hk : k ≠ n) :
    pyLookup res k = lookupKV k mk := by
  obtain ⟨vk, rfl⟩ := hv
  by_cases hc : hasKey n mk
  · simp only [undItems, pyContains, hc, if_true] at h
    obtain ⟨sub, hsub⟩ : ∃ sub, lookupKV n mk = some sub :=
      Option.isSome_iff_exists.mp hc
    simp only [pyGetItem, hsub] at h
    cases hu2 : undItems sub vk with
    | error e => rw [hu2] at h; exact absurd h (by simp)
    | ok sub' =>
      rw [hu2] at h
      simp only [pySetItem] at h
      cases h
      simp [pyLookup, lookupKV_dictSet_ne _ _ _ _ hk]
  · simp only [undItems, pyContains, hc, if_false, Bool.false_eq_true, pySetItem] at h
    cases h
    simp [pyLookup, lookupKV_dictSet_ne _ _ _ _ hk]

theorem checkVal_is_dict (b : Bool) (r : Option String) :
    ∃ vk, checkVal b r = PyVal.pydict vk := by
  cases b <;> simp [checkVal]

/-- `AddCheckResults` success: the `valid` conjunction, the appended trace
event, the untouched config, and preservation of every other name in the
results tree. -/
theorem addCheckResults_ok {st : LintState} {n : String} {b : Bool}
    {r : Option String} {st' : LintState}
    (h : addCheckResults st n b r = .ok st') :
    st'.valid = (st.valid && b) ∧ st'.trace = st.trace ++ [⟨n, b, r⟩] ∧
      st'.config = st.config ∧
      ∀ k, k ≠ n → resultsLookup st' k = resultsLookup st k := by
  unfold addCheckResults at h
  cases hu : undItems st.results [(n, checkVal b r)] with
  | error e => rw [hu] at h; exact absurd h (by simp)
  | ok results' =>
    rw [hu] at h
    cases h
    refine ⟨rfl, rfl, rfl, fun k hk => ?_⟩
    obtain ⟨vk, hvk⟩ := checkVal_is_dict b r
    rw [hvk] at hu
    cases hres : st.results with
    | pydict mk =>
      rw [hres] at hu
      have := undItems_single_lookup ⟨vk, rfl⟩ hu k hk
      simpa [resultsLookup, hres, pyLookup] using this
    | pynone =>
      rw [hres] at hu
      exact absurd hu (fun hh => undItems_single_nondict (by intro mk h'; cases h') hh)
    | pybool b0 =>
      rw [hres] at hu
      exact absurd hu (fun hh => undItems_single_nondict (by intro mk h'; cases h') hh)
    | pyint i0 =>
      rw [hres] at hu
      exact absurd hu (fun hh => undItems_single_nondict (by intro mk h'; cases h') hh)
    | pystr s0 =>
      rw [hres] at hu
      exact absurd hu (fun hh => undItems_single_nondict (by intro mk h'; cases h') hh)
    | pylist l0 =>
      rw [hres] at hu
      exact absurd hu (fun hh => undItems_single_nondict (by intro mk h'; cases h') hh)

/-- `AddStageCheckResults` success: the `valid` conjunction, the appended
sub-trace, the untouched config, and preservation of every name other than
`stages` in the results tree. -/
theorem addStageCheckResults_ok {st : LintState} {category : String}
    {sub : LintState} {st' : LintState}
    (h : addStageCheckResults st category sub = .ok st') :
    st'.valid = (st.valid && sub.valid) ∧ st'.trace = st.trace ++ sub.trace ∧
      st'.config = st.config ∧
      ∀ k, k ≠ "stages" → resultsLookup st' k = resultsLookup st k := by
  obtain ⟨v0, res0, cfg0, tr0⟩ := st
  cases res0 with
  | pydict kvs =>
    simp only [addStageCheckResults] at h
    split at h
    · cases h
      exact ⟨rfl, rfl, rfl, fun k hk => by
        simp [resultsLookup, pyLookup, lookupKV_dictSet_ne _ _ _ _ hk]⟩
    · split at h
      · cases h
        exact ⟨rfl, rfl, rfl, fun k hk => by
          simp [resultsLookup, pyLookup, lookupKV_dictSet_ne _ _ _ _ hk]⟩
      · cases h
        exact ⟨rfl, rfl, rfl, fun k hk => by
          simp [resultsLookup, pyLookup, lookupKV_dictSet_ne _ _ _ _ hk]⟩
      · exact absurd h (by simp)
    · exact absurd h (by simp)
  | pynone => exact absurd h (by simp [addStageCheckResults])
  | pybool b => exact absurd h (by simp [addStageCheckResults])
  | pyint i => exact absurd h (by simp [addStageCheckResults])
  | pystr s => exact absurd h (by simp [addStageCheckResults])
  | pylist l => exact absurd h (by simp [addStageCheckResults])

theorem stepTV_rfl (st : LintState) : StepTV st st :=
  ⟨[], by simp⟩

theorem stepTV_trans {a b c : LintState} (h1 : StepTV a b) (h2 : StepTV b c) :
    StepTV a c := by
  obtain ⟨d1, ht1, hv1⟩ := h1
  obtain ⟨d2, ht2, hv2⟩ := h2
  exact ⟨d1 ++ d2, by simp [ht2, ht1], by simp [hv2, hv1, Bool.and_assoc]⟩

theorem stepTV_of_addCheck {st st' : LintState} {n : String} {b : Bool}
    {r : Option String} (h : addCheckResults st n b r = .ok st') :
    StepTV st st' := by
  obtain ⟨hv, ht, _, _⟩ := addCheckResults_ok h
  exact ⟨[⟨n, b, r⟩], by simp [ht], by simp [hv]⟩

theorem typeCheck_props {env : LintEnv} {st : LintState} {s : PyVal}
    {st' : LintState} (h : typeCheck env st s = .ok st') : StepTV st st' := by
  unfold typeCheck at h
  split at h
  · exact absurd h (by simp)
  · split at h
    · split at h
      · exact stepTV_of_addCheck h
      · exact stepTV_of_addCheck h
      · exact absurd h (by simp)
    · exact stepTV_of_addCheck h

theorem runStageChecks_props {l : List CheckRec} :
    ∀ {st st' : LintState}, runStageChecks st l = .ok st' → StepTV st st' := by
  induction l with
  | nil =>
    intro st st' h
    unfold runStageChecks at h
    cases h
    exact stepTV_rfl st
  | cons c rest ih =>
    intro st st' h
    unfold runStageChecks at h
    split at h
    · exact absurd h (by simp)
    · rename_i st1 heq
      exact stepTV_trans (stepTV_of_addCheck heq) (ih h)

theorem sourceSinkOne_props {st : LintState} {s : PyVal} {which : String}
    {st' : LintState} (h : sourceSinkOne st s which = .ok st') :
    StepTV st st' := by
  unfold sourceSinkOne at h
  split at h
  · exact absurd h (by simp)
  · split at h
    · split at h
      · exact absurd h (by simp)
      · split at h
        · exact stepTV_of_addCheck h
        · split at h
          · exact absurd h (by simp)
          · exact stepTV_of_addCheck h
    · cases h
      exact stepTV_rfl st

theorem lintStage_step {env : LintEnv} {s : PyVal} {sub : LintState}
    (h : lintStage env s = .ok sub) : StepTV freshState sub := by
  unfold lintStage at h
  split at h
  · exact absurd h (by simp)
  · rename_i st1 heq1
    split at h
    · exact absurd h (by simp)
    · rename_i st2 heq2
      split at h
      · exact absurd h (by simp)
      · rename_i st3 heq3
        have step2 : StepTV st1 st2 := by
          split at heq2
          · split at heq2
            · exact runStageChecks_props heq2
            · cases heq2; exact stepTV_rfl st1
            · exact absurd heq2 (by simp)
            · exact absurd heq2 (by simp)
          · cases heq2; exact stepTV_rfl st1
        exact stepTV_trans (typeCheck_props heq1) (stepTV_trans step2
          (stepTV_trans (sourceSinkOne_props heq3) (sourceSinkOne_props h)))

theorem lintStage_coh {env : LintEnv} {s : PyVal} {sub : LintState}
    (h : lintStage env s = .ok sub) :
    sub.valid = sub.trace.all (fun c => c.pass) := by
  obtain ⟨δ, ht, hv⟩ := lintStage_step h
  simp [freshState] at ht hv
  rw [ht, hv]

theorem lintStages_props {env : LintEnv} {category : String} :
    ∀ {l : List PyVal} {st st' : LintState},
      lintStages env st category l = .ok st' →
      StepTV st st' ∧
        ∀ k, k ≠ "stages" → resultsLookup st' k = resultsLookup st k := by
  intro l
  induction l with
  | nil =>
    intro st st' h
    unfold lintStages at h
    cases h
    exact ⟨stepTV_rfl st, fun k _ => rfl⟩
  | cons s rest ih =>
    intro st st' h
    unfold lintStages at h
    split at h
    · exact absurd h (by simp)
    · rename_i sub heq1
      split at h
      · exact absurd h (by simp)
      · rename_i st1 heq2
        obtain ⟨hval, htr, _, hlook⟩ := addStageCheckResults_ok heq2
        obtain ⟨ihstep, ihlook⟩ := ih h
        refine ⟨stepTV_trans ⟨sub.trace, htr, ?_⟩ ihstep, fun k hk => ?_⟩
        · rw [hval, lintStage_coh heq1]
        · rw [ihlook k hk, hlook k hk]

theorem syntaxCheck_props {st : LintState} {p : Except String PyVal}
    {phase : Option String} {st' : LintState}
    (h : syntaxCheck st p phase = .ok st') : StepTV st st' := by
  unfold syntaxCheck at h
  split at h
  · obtain ⟨hv, ht, _, _⟩ := addCheckResults_ok h
    exact ⟨[⟨"SyntaxValid", true, none⟩], by simpa using ht, by simpa using hv⟩
  · exact stepTV_of_addCheck h

theorem addDefaultOptions_props {st : LintState} {defaults : PyVal}
    {st' : LintState} (h : addDefaultOptions st defaults = .ok st') :
    st'.valid = st.valid ∧ st'.trace = st.trace ∧ st'.results = st.results := by
  unfold addDefaultOptions at h
  split at h
  · exact absurd h (by simp)
  · split at h
    · exact absurd h (by simp)
    · split at h
      · exact absurd h (by simp)
      · cases h
        exact ⟨rfl, rfl, rfl⟩

theorem expandTemplate_props {env : LintEnv} {st st' : LintState}
    {rp : Except String PyVal}
    (h : expandTemplate env st = .ok (st', rp)) : StepTV st st' := by
  unfold expandTemplate at h
  split at h
  · exact absurd h (by simp)
  · split at h
    · split at h
      · exact absurd h (by simp)
      · rename_i st1 heq
        cases h
        exact stepTV_of_addCheck heq
    · split at h
      · exact absurd h (by simp)
      · rename_i st1 heq1
        split at h
        · exact absurd h (by simp)
        · rename_i st2 heq2
          cases h
          exact stepTV_trans (stepTV_of_addCheck heq1) (stepTV_of_addCheck heq2)
    · exact absurd h (by simp)

theorem stageCheck_props {env : LintEnv} {st st' : LintState}
    (h : stageCheck env st = .ok st') :
    StepTV st st' ∧
      ∀ k, k ≠ "HasOneInputOrOutputStage" → k ≠ "NoUnknownKeys" →
        k ≠ "stages" → resultsLookup st' k = resultsLookup st k := by
  unfold stageCheck stageCheckCore at h
  split at h
  · exact absurd h (by simp)
  · split at h
    · exact absurd h (by simp)
    · split at h
      · exact absurd h (by simp)
      · split at h
        · exact absurd h (by simp)
        · rename_i st1 heq1
          split at h
          · exact absurd h (by simp)
          · split at h
            · exact absurd h (by simp)
            · rename_i st2 heq2
              split at h
              · exact absurd h (by simp)
              · split at h
                · exact absurd h (by simp)
                · split at h
                  · exact absurd h (by simp)
                  · rename_i st3 heq3
                    split at h
                    · exact absurd h (by simp)
                    · split at h
                      · exact absurd h (by simp)
                      · split at h
                        · exact absurd h (by simp)
                        · rename_i st4 heq4
                          split at h
                          · exact absurd h (by simp)
                          · split at h
                            · exact absurd h (by simp)
                            · obtain ⟨s1, l1⟩ := lintStages_props heq3
                              obtain ⟨s2, l2⟩ := lintStages_props heq4
                              obtain ⟨s3, l3⟩ := lintStages_props h
                              obtain ⟨v1, t1, _, k1⟩ := addCheckResults_ok heq1
                              obtain ⟨v2, t2, _, k2⟩ := addCheckResults_ok heq2
                              refine ⟨stepTV_trans (stepTV_of_addCheck heq1)
                                (stepTV_trans (stepTV_of_addCheck heq2)
                                  (stepTV_trans s1 (stepTV_trans s2 s3))),
                                fun k hk1 hk2 hk3 => ?_⟩
                              rw [l3 k hk3, l2 k hk3, l1 k hk3, k2 k hk2, k1 k hk1]

theorem coh_of_stepTV {st st' : LintState}
    (hc : st.valid = st.trace.all (fun c => c.pass)) (h : StepTV st st') :
    st'.valid = st'.trace.all (fun c => c.pass) := by
  obtain ⟨δ, ht, hv⟩ := h
  rw [hv, ht, hc, List.all_append]

/-- C6 (counterexample): a lint run in which the aggregate `valid` flag is
`false` while every `pass` field in the final results tree is `true`.  The
post-template re-parse fails, so `SyntaxValid` is recorded a second time
with `pass = false`, but the nested-dict merge keeps the first (passing)
`SyntaxValid` entry, so only `valid` remembers the failure. -/
theorem c6_counterexample :
    ∃ st, lintRun c6env (.ok c6cfg) c6defaults = .ok st ∧
      st.valid = false ∧ (collectPasses st.results).all id = true :=
  ⟨_, rfl, rfl, rfl⟩

/-- C6 (amended): for every lint run that returns a result, the aggregate
`valid` flag equals the conjunction of the `pass` flags of every *recorded*
check event (the trace of `AddCheckResults` calls) — not of the entries
that survive in the results tree, which can lose failing records to the
first-entry-wins nested-dict merge. -/
theorem c6_valid_eq_trace_conj (env : LintEnv) (p1 : Except String PyVal)
    (defaults : PyVal) (st : LintState)
    (h : lintRun env p1 defaults = .ok st) :
    st.valid = st.trace.all (fun c => c.pass) := by
  unfold lintRun at h
  split at h
  · exact absurd h (by simp)
  · rename_i st0 heq0
    have hcoh0 : st0.valid = st0.trace.all (fun c => c.pass) := by
      unfold preRun at heq0
      split at heq0
      · exact absurd heq0 (by simp)
      · rename_i st1 heq1
        have hcoh1 : st1.valid = st1.trace.all (fun c => c.pass) :=
          coh_of_stepTV (by simp [freshState]) (syntaxCheck_props heq1)
        split at heq0
        · split at heq0
          · exact absurd heq0 (by simp)
          · rename_i st2 heq2
            obtain ⟨hv2, ht2, _⟩ := addDefaultOptions_props heq2
            have hcoh2 : st2.valid = st2.trace.all (fun c => c.pass) := by
              rw [hv2, ht2]; exact hcoh1
            split at heq0
            · exact absurd heq0 (by simp)
            · rename_i st3 reparse heq3
              have hcoh3 : st3.valid = st3.trace.all (fun c => c.pass) :=
                coh_of_stepTV hcoh2 (expandTemplate_props heq3)
              exact coh_of_stepTV hcoh3 (syntaxCheck_props heq0)
        · cases heq0
          exact hcoh1
    exact coh_of_stepTV hcoh0 (stageCheck_props h).1

theorem c6_witness :
    ∃ st, lintRun c6wenv (.ok c6wcfg) .pynone = .ok st ∧
      st.valid = st.trace.all (fun c => c.pass) :=
  ⟨_, rfl, c6_valid_eq_trace_conj c6wenv (.ok c6wcfg) .pynone _ rfl⟩

theorem c5aux (env : LintEnv) (a0 : String × PyVal) (ckvs0 : List (String × PyVal))
    (defaults opts1 : PyVal)
    (hd : pyTruthy defaults = true)
    (hund : updateNestedDict ((lookupKV "options" (a0 :: ckvs0)).getD (.pydict []))
        defaults = .ok opts1)
    {st4 : LintState}
    (h : preRun env (.ok (.pydict (a0 :: ckvs0))) defaults = .ok st4) :
    ∃ st3 rp, expandTemplate env
        (preTplState (.pydict (dictSet (a0 :: ckvs0) "options" opts1)) [svPassRec]) =
        .ok (st3, rp) ∧
      syntaxCheck st3 rp (some "PostTemplate: ") = .ok st4 := by
  unfold preRun at h
  split at h
  · exact absurd h (by simp)
  · rename_i st1 heq1
    have e1 : syntaxCheck freshState (.ok (.pydict (a0 :: ckvs0))) none =
        .ok (preTplState (.pydict (a0 :: ckvs0)) [svPassRec]) := rfl
    rw [e1] at heq1
    cases heq1
    split at h
    · split at h
      · exact absurd h (by simp)
      · rename_i st2 heq2
        unfold addDefaultOptions at heq2
        split at heq2
        · rename_i e heqo
          simp [pyGet, preTplState] at heqo
        · rename_i options0 heqo
          simp only [pyGet, preTplState] at heqo
          have ho : options0 = (lookupKV "options" (a0 :: ckvs0)).getD (.pydict []) :=
            (Except.ok.inj heqo).symm
          subst ho
          split at heq2
          · exact Except.noConfusion heq2
          · rename_i options1 hequ
            split at hequ
            · rw [hund] at hequ
              have ho1 : opts1 = options1 := Except.ok.inj hequ
              subst ho1
              have hst2 : (Except.ok
                  (preTplState (.pydict (dictSet (a0 :: ckvs0) "options" opts1))
                    [svPassRec]) : Except String LintState) = Except.ok st2 := by
                rw [← heq2]; rfl
              cases hst2
              split at h
              · exact absurd h (by simp)
              · rename_i st3 rp heq3
                exact ⟨st3, rp, heq3, h⟩
            · rename_i hcond2
              exact absurd hd hcond2
    · rename_i hcond
      exfalso
      apply hcond
      show (pyTruthy (PyVal.pydict (a0 :: ckvs0)) && pyTruthy defaults) = true
      rw [hd]
      rfl

theorem c5auxErr (env : LintEnv) (cfg2 tv : PyVal) (tr : List CheckRec) (m : String)
    {st3 : LintState} {rp : Except String PyVal}
    (hgtv : getTemplateVariables env cfg2 = .ok tv)
    (htpl : env.tpl cfg2 tv = .syntaxErr m)
    (he : expandTemplate env (preTplState cfg2 tr) = .ok (st3, rp)) :
    st3 = tplErrState cfg2 tr m ∧ rp = .ok cfg2 := by
  have hproj : (preTplState cfg2 tr).config = cfg2 := rfl
  unfold expandTemplate at he
  split at he
  · rename_i e heqg
    rw [hproj, hgtv] at heqg
    exact Except.noConfusion heqg
  · rename_i vars heqg
    rw [hproj, hgtv] at heqg
    have hv : tv = vars := Except.ok.inj heqg
    subst hv
    split at he
    · rename_i reparse heqt
      rw [hproj, htpl] at heqt
      exact TplOutcome.noConfusion heqt
    · rename_i m' heqt
      rw [hproj, htpl] at heqt
      have hm : m = m' := TplOutcome.syntaxErr.inj heqt
      subst hm
      split at he
      · rename_i e heqa
        have ea : addCheckResults (preTplState cfg2 tr) "TemplateValid" false
            (some m) = .ok (tplErrMidState cfg2 tr m) := rfl
        rw [ea] at heqa
        exact Except.noConfusion heqa
      · rename_i st1 heqa
        have ea : addCheckResults (preTplState cfg2 tr) "TemplateValid" false
            (some m) = .ok (tplErrMidState cfg2 tr m) := rfl
        rw [ea] at heqa
        have h1 : _ = st1 := Except.ok.inj heqa
        subst h1
        split at he
        · rename_i e heqb
          have eb : addCheckResults (tplErrMidState cfg2 tr m)
              "TemplateValid" true none = .ok (tplErrState cfg2 tr m) := rfl
          rw [eb] at heqb
          exact Except.noConfusion heqb
        · rename_i st2 heqb
          have eb : addCheckResults (tplErrMidState cfg2 tr m)
              "TemplateValid" true none = .ok (tplErrState cfg2 tr m) := rfl
          rw [eb] at heqb
          have h2 : _ = st2 := Except.ok.inj heqb
          subst h2
          cases he
          exact ⟨rfl, rfl⟩
    · rename_i m' heqt
      rw [hproj, htpl] at heqt
      exact TplOutcome.noConfusion heqt

theorem c5auxOk (env : LintEnv) (cfg2 tv : PyVal) (tr : List CheckRec)
    (reparse : Except String PyVal)
    {st3 : LintState} {rp : Except String PyVal}
    (hgtv : getTemplateVariables env cfg2 = .ok tv)
    (htpl : env.tpl cfg2 tv = .rendered reparse)
    (he : expandTemplate env (preTplState cfg2 tr) = .ok (st3, rp)) :
    st3 = tplOkState cfg2 tr ∧ rp = reparse := by
  have hproj : (preTplState cfg2 tr).config = cfg2 := rfl
  unfold expandTemplate at he
  split at he
  · rename_i e heqg
    rw [hproj, hgtv] at heqg
    exact Except.noConfusion heqg
  · rename_i vars heqg
    rw [hproj, hgtv] at heqg
    have hv : tv = vars := Except.ok.inj heqg
    subst hv
    split at he
    · rename_i reparse' heqt
      rw [hproj, htpl] at heqt
      have hr : reparse = reparse' := TplOutcome.rendered.inj heqt
      subst hr
      split at he
      · rename_i e heqa
        have ea : addCheckResults (preTplState cfg2 tr) "TemplateValid" true
            none = .ok (tplOkState cfg2 tr) := rfl
        rw [ea] at heqa
        exact Except.noConfusion heqa
      · rename_i st1 heqa
        have ea : addCheckResults (preTplState cfg2 tr) "TemplateValid" true
            none = .ok (tplOkState cfg2 tr) := rfl
        rw [ea] at heqa
        have h1 : _ = st1 := Except.ok.inj heqa
        subst h1
        cases he
        exact ⟨rfl, rfl⟩
    · rename_i m' heqt
      rw [hproj, htpl] at heqt
      exact TplOutcome.noConfusion heqt
    · rename_i m' heqt
      rw [hproj, htpl] at heqt
      exact TplOutcome.noConfusion heqt

/-- C5 (amended): on a template-syntax error the linter records
`TemplateValid` failing, and that failing entry (with its reason) is what
the results tree keeps, with `valid` false — but it does *not* stop: a
second, passing `TemplateValid` event is recorded right after (and merged
away), and the post-template `SyntaxValid` check still runs, on the
un-rendered `json.dumps` round-trip of the config.  When rendering
succeeds, `TemplateValid` is recorded (and stored) passing and the syntax
check is re-run on the rendered text, whatever its re-parse outcome:
the recorded `SyntaxValid` event passes on a successful re-parse and fails
with the `PostTemplate: `-prefixed message otherwise. -/
theorem c5_template_error_behavior
    (e1 e2 : LintEnv) (a0 : String × PyVal) (ckvs0 : List (String × PyVal))
    (defaults opts1 tv1 tv2 : PyVal) (reparse : Except String PyVal)
    (m : String)
    (hd : pyTruthy defaults = true)
    (hund : updateNestedDict ((lookupKV "options" (a0 :: ckvs0)).getD (.pydict []))
        defaults = .ok opts1)
    (hgtv1 : getTemplateVariables e1
        (.pydict (dictSet (a0 :: ckvs0) "options" opts1)) = .ok tv1)
    (htpl1 : e1.tpl (.pydict (dictSet (a0 :: ckvs0) "options" opts1)) tv1 =
        .syntaxErr m)
    (hgtv2 : getTemplateVariables e2
        (.pydict (dictSet (a0 :: ckvs0) "options" opts1)) = .ok tv2)
    (htpl2 : e2.tpl (.pydict (dictSet (a0 :: ckvs0) "options" opts1)) tv2 =
        .rendered reparse) :
    (∀ st, lintRun e1 (.ok (.pydict (a0 :: ckvs0))) defaults = .ok st →
      (∃ post, st.trace = ⟨"SyntaxValid", true, none⟩ ::
          ⟨"TemplateValid", false, some m⟩ :: ⟨"TemplateValid", true, none⟩ ::
          ⟨"SyntaxValid", true, none⟩ :: post) ∧
      resultsLookup st "TemplateValid" =
        some (.pydict [("pass", .pybool false), ("reason", .pystr m)]) ∧
      st.valid = false) ∧
    (∀ st, lintRun e2 (.ok (.pydict (a0 :: ckvs0))) defaults = .ok st →
      (∃ post, st.trace = ⟨"SyntaxValid", true, none⟩ ::
          ⟨"TemplateValid", true, none⟩ :: postTplSyntaxRec reparse :: post) ∧
      resultsLookup st "TemplateValid" =
        some (.pydict [("pass", .pybool true)])) := by
  constructor
  · intro st hrun
    unfold lintRun at hrun
    split at hrun
    · exact absurd hrun (by simp)
    · rename_i st4 hpre
      obtain ⟨st3, rp, he, hs⟩ := c5aux e1 a0 ckvs0 defaults opts1 hd hund hpre
      obtain ⟨hst3, hrp⟩ := c5auxErr e1
        (.pydict (dictSet (a0 :: ckvs0) "options" opts1)) tv1 [svPassRec] m
        hgtv1 htpl1 he
      subst hst3
      subst hrp
      have e4 : syntaxCheck
          (tplErrState (.pydict (dictSet (a0 :: ckvs0) "options" opts1))
            [svPassRec] m)
          (.ok (.pydict (dictSet (a0 :: ckvs0) "options" opts1)))
          (some "PostTemplate: ") =
          .ok (postErrState (.pydict (dictSet (a0 :: ckvs0) "options" opts1)) m) := rfl
      rw [e4] at hs
      cases hs
      obtain ⟨⟨δ, htr, hval⟩, hpres⟩ := stageCheck_props hrun
      refine ⟨⟨δ, htr⟩, ?_, ?_⟩
      · rw [hpres "TemplateValid" (by decide) (by decide) (by decide)]
        rfl
      · rw [hval]
        rfl
  · intro st hrun
    unfold lintRun at hrun
    split at hrun
    · exact absurd hrun (by simp)
    · rename_i st4 hpre
      obtain ⟨st3, rp, he, hs⟩ := c5aux e2 a0 ckvs0 defaults opts1 hd hund hpre
      obtain ⟨hst3, hrp⟩ := c5auxOk e2
        (.pydict (dictSet (a0 :: ckvs0) "options" opts1)) tv2 [svPassRec]
        reparse hgtv2 htpl2 he
      subst hst3
      rw [hrp] at hs
      cases reparse with
      | ok c2 =>
        have e4 : syntaxCheck
            (tplOkState (.pydict (dictSet (a0 :: ckvs0) "options" opts1)) [svPassRec])
            (.ok c2) (some "PostTemplate: ") =
            .ok (postOkState (.pydict (dictSet (a0 :: ckvs0) "options" opts1)) c2) := rfl
        rw [e4] at hs
        cases hs
        obtain ⟨⟨δ, htr, hval⟩, hpres⟩ := stageCheck_props hrun
        refine ⟨⟨δ, htr⟩, ?_⟩
        rw [hpres "TemplateValid" (by decide) (by decide) (by decide)]
        rfl
      | error m2 =>
        have e4 : syntaxCheck
            (tplOkState (.pydict (dictSet (a0 :: ckvs0) "options" opts1)) [svPassRec])
            (.error m2) (some "PostTemplate: ") =
            .ok (postOkErrState (.pydict (dictSet (a0 :: ckvs0) "options" opts1))
              m2) := rfl
        rw [e4] at hs
        cases hs
        obtain ⟨⟨δ, htr, hval⟩, hpres⟩ := stageCheck_props hrun
        refine ⟨⟨δ, htr⟩, ?_⟩
        rw [hpres "TemplateValid" (by decide) (by decide) (by decide)]
        rfl

/-- C5 (counterexample): a lint run whose template rendering raises a
template-syntax error, yet the linter does not stop there: the trace holds
*two* `SyntaxValid` events (the post-template re-check still ran) and two
`TemplateValid` events, failing then passing — though the stored
`TemplateValid` entry keeps the failing record. -/
theorem c5_counterexample :
    ∃ st, lintRun c5env (.ok c5cfg) c5defaults = .ok st ∧
      (st.trace.filter (fun c => c.name == "SyntaxValid")).length = 2 ∧
      (st.trace.filter (fun c => c.name == "TemplateValid")).map
        (fun c => c.pass) = [false, true] ∧
      resultsLookup st "TemplateValid" =
        some (.pydict [("pass", .pybool false),
          ("reason", .pystr "unexpected end of template")]) :=
  ⟨_, rfl, rfl, rfl, rfl⟩

theorem c5_witness :
    (∃ st, lintRun c5we1 (.ok (.pydict [("options", PyVal.pydict [])]))
        (.pydict [("b", .pyint 2)]) = .ok st ∧
      (∃ post, st.trace = ⟨"SyntaxValid", true, none⟩ ::
          ⟨"TemplateValid", false, some "unexpected end of template"⟩ ::
          ⟨"TemplateValid", true, none⟩ :: ⟨"SyntaxValid", true, none⟩ :: post) ∧
      resultsLookup st "TemplateValid" =
        some (.pydict [("pass", .pybool false),
          ("reason", .pystr "unexpected end of template")]) ∧
      st.valid = false) ∧
    (∃ st, lintRun c5we2 (.ok (.pydict [("options", PyVal.pydict [])]))
        (.pydict [("b", .pyint 2)]) = .ok st ∧
      (∃ post, st.trace = ⟨"SyntaxValid", true, none⟩ ::
          ⟨"TemplateValid", true, none⟩ :: ⟨"SyntaxValid", true, none⟩ :: post) ∧
      resultsLookup st "TemplateValid" =
        some (.pydict [("pass", .pybool true)])) := by
  have h := c5_template_error_behavior c5we1 c5we2 ("options", PyVal.pydict [])
    [] (.pydict [("b", .pyint 2)]) (.pydict [("b", .pyint 2)]) c5wtv c5wtv
    (.ok (.pydict [])) "unexpected end of template" (by decide) rfl rfl rfl rfl rfl
  exact ⟨⟨_, rfl, h.1 _ rfl⟩, ⟨_, rfl, h.2 _ rfl⟩⟩

theorem undItems_nil (master : PyVal) : undItems master [] = .ok master := rfl

theorem undItems_cons (master : PyVal) (k : String) (v : PyVal)
    (rest : List (String × PyVal)) :
    undItems master ((k, v) :: rest) =
      (match pyContains master (.pystr k) with
       | .error e => .error e
       | .ok c =>
         if c then
           match v with
           | .pydict vkvs =>
             match pyGetItem master k with
             | .error e => .error e
             | .ok sub =>
               match undItems sub vkvs with
               | .error e => .error e
               | .ok sub' =>
                 match pySetItem master k sub' with
                 | .error e => .error e
                 | .ok master' => undItems master' rest
           | _ => undItems master rest
         else
           match pySetItem master k v with
           | .error e => .error e
           | .ok master' => undItems master' rest) := by
  cases v <;> simp only [undItems]

theorem all_dictSet {p : String × PyVal → Bool} {kvs : List (String × PyVal)}
    (h : kvs.all p = true) {k : String} {v : PyVal} (hv : p (k, v) = true) :
    (dictSet kvs k v).all p = true := by
  induction kvs with
  | nil => simp [dictSet, hv]
  | cons kv rest ih =>
    obtain ⟨k0, v0⟩ := kv
    simp only [List.all_cons, Bool.and_eq_true] at h
    by_cases h0 : k0 = k
    · simp [dictSet, h0, hv, h.2]
    · simp [dictSet, h0, h.1, ih h.2]

theorem all_lookupKV {p : PyVal → Bool} {kvs : List (String × PyVal)}
    (h : kvs.all (fun kv => p kv.2) = true) {k : String} {v : PyVal}
    (hl : lookupKV k kvs = some v) : p v = true := by
  induction kvs with
  | nil => simp [lookupKV] at hl
  | cons kv rest ih =>
    obtain ⟨k0, v0⟩ := kv
    simp only [List.all_cons, Bool.and_eq_true] at h
    by_cases h0 : k0 = k
    · simp only [lookupKV, h0, if_true] at hl
      cases hl
      exact h.1
    · simp only [lookupKV, h0, if_false] at hl
      exact ih h.2 hl

/-- A successful `UpdateNestedDict` pass over a dict master yields a dict. -/
theorem undItems_dict_shape :
    ∀ (items : List (String × PyVal)) (sk : List (String × PyVal)) {r : PyVal},
      undItems (.pydict sk) items = .ok r → ∃ rk, r = PyVal.pydict rk := by
  intro items
  induction items with
  | nil =>
    intro sk r h
    rw [undItems_nil] at h
    cases h
    exact ⟨sk, rfl⟩
  | cons kv rest ih =>
    intro sk r h
    obtain ⟨k, v⟩ := kv
    rw [undItems_cons] at h
    simp only [pyContains] at h
    split at h
    · split at h
      · split at h
        · exact absurd h (by simp)
        · rename_i sub heqs
          split at h
          · exact absurd h (by simp)
          · rename_i sub' hequ
            split at h
            · exact absurd h (by simp)
            · rename_i master' heqm
              simp only [pySetItem] at heqm
              cases heqm
              exact ih _ h
      · exact ih _ h
    · split at h
      · exact absurd h (by simp)
      · rename_i master' heqm
        simp only [pySetItem] at heqm
        cases heqm
        exact ih _ h

/-- `UpdateNestedDict` with only non-dict values never fails on a dict
master and stays a dict. -/
theorem undItems_scalar_ok :
    ∀ (items : List (String × PyVal)),
      (∀ kv ∈ items, isDictB kv.2 = false) →
      ∀ (sk : List (String × PyVal)),
        ∃ sk', undItems (.pydict sk) items = .ok (.pydict sk') := by
  intro items
  induction items with
  | nil => exact fun _ sk => ⟨sk, rfl⟩
  | cons kv rest ih =>
    intro hv sk
    obtain ⟨k, v⟩ := kv
    have hvhead : isDictB v = false := hv (k, v) (List.mem_cons_self _ _)
    have hvrest : ∀ kv ∈ rest, isDictB kv.2 = false :=
      fun kv hkv => hv kv (List.mem_cons_of_mem _ hkv)
    by_cases hc : hasKey k sk
    · obtain ⟨sk', ih'⟩ := ih hvrest sk
      refine ⟨sk', ?_⟩
      cases v with
      | pydict d => simp [isDictB] at hvhead
      | pynone => rw [undItems_cons]; simp only [pyContains, hc, if_true]; exact ih'
      | pybool b => rw [undItems_cons]; simp only [pyContains, hc, if_true]; exact ih'
      | pyint i => rw [undItems_cons]; simp only [pyContains, hc, if_true]; exact ih'
      | pystr s => rw [undItems_cons]; simp only [pyContains, hc, if_true]; exact ih'
      | pylist l => rw [undItems_cons]; simp only [pyContains, hc, if_true]; exact ih'
    · obtain ⟨sk', ih'⟩ := ih hvrest (dictSet sk k v)
      refine ⟨sk', ?_⟩
      rw [undItems_cons]
      simp only [pyContains, hc, Bool.false_eq_true, if_false, pySetItem]
      exact ih'

theorem checkVal_scalar (b : Bool) (r : Option String) :
    ∃ vk, checkVal b r = PyVal.pydict vk ∧ ∀ kv ∈ vk, isDictB kv.2 = false := by
  cases b with
  | true => exact ⟨_, rfl, by decide⟩
  | false =>
    cases r with
    | none => exact ⟨_, rfl, by decide⟩
    | some s =>
      refine ⟨_, rfl, ?_⟩
      intro kv hkv
      rcases List.mem_cons.mp hkv with h | h
      · subst h; rfl
      · rcases List.mem_cons.mp h with h2 | h2
        · subst h2; rfl
        · simp at h2

theorem resultsDictInvB_dict {v : PyVal} (h : resultsDictInvB v = true) :
    ∃ kvs, v = PyVal.pydict kvs ∧ kvs.all (fun kv => isDictB kv.2) = true := by
  cases v with
  | pydict kvs => exact ⟨kvs, rfl, h⟩
  | pynone => simp [resultsDictInvB] at h
  | pybool b => simp [resultsDictInvB] at h
  | pyint i => simp [resultsDictInvB] at h
  | pystr s => simp [resultsDictInvB] at h
  | pylist l => simp [resultsDictInvB] at h

theorem isDictB_dict {v : PyVal} (h : isDictB v = true) :
    ∃ kvs, v = PyVal.pydict kvs := by
  cases v with
  | pydict kvs => exact ⟨kvs, rfl⟩
  | pynone => simp [isDictB] at h
  | pybool b => simp [isDictB] at h
  | pyint i => simp [isDictB] at h
  | pystr s => simp [isDictB] at h
  | pylist l => simp [isDictB] at h

/-- The single-entry check merge: on an invariant-respecting results dict it
always succeeds and preserves the invariant. -/
theorem undItems_checkVal_total {kvs : List (String × PyVal)}
    (hall : kvs.all (fun kv => isDictB kv.2) = true) (n : String) (b : Bool)
    (r : Option String) :
    ∃ kvs', undItems (.pydict kvs) [(n, checkVal b r)] = .ok (.pydict kvs') ∧
      (kvs').all (fun kv => isDictB kv.2) = true := by
  obtain ⟨cvk, hcv, hcvs⟩ := checkVal_scalar b r
  by_cases hc : hasKey n kvs
  · obtain ⟨sub, hsub⟩ := Option.isSome_iff_exists.mp hc
    obtain ⟨skvs, hskvs⟩ := isDictB_dict (all_lookupKV hall hsub)
    subst hskvs
    obtain ⟨sk', hok⟩ := undItems_scalar_ok cvk hcvs skvs
    refine ⟨dictSet kvs n (.pydict sk'), ?_, ?_⟩
    · rw [hcv, undItems_cons]
      simp only [pyContains, hc, if_true, pyGetItem, hsub, hok, pySetItem,
        undItems_nil]
    · exact all_dictSet hall rfl
  · refine ⟨dictSet kvs n (checkVal b r), ?_, ?_⟩
    · rw [undItems_cons]
      simp only [pyContains, hc, Bool.false_eq_true, if_false, pySetItem,
        undItems_nil]
    · rw [hcv]
      exact all_dictSet hall rfl

/-- `AddCheckResults` never raises on an invariant-respecting results tree,
and preserves the invariant. -/
theorem addCheckResults_total {st : LintState}
    (hinv : resultsDictInvB st.results = true) (n : String) (b : Bool)
    (r : Option String) :
    ∃ st', addCheckResults st n b r = .ok st' ∧
      resultsDictInvB st'.results = true := by
  obtain ⟨kvs, hres, hall⟩ := resultsDictInvB_dict hinv
  obtain ⟨kvs', hu, hall'⟩ := undItems_checkVal_total hall n b r
  refine ⟨{ st with valid := st.valid && b, results := .pydict kvs',
                    trace := st.trace ++ [⟨n, b, r⟩] }, ?_, ?_⟩
  · unfold addCheckResults
    rw [hres, hu]
  · simpa [resultsDictInvB] using hall'

/-- A successful `AddCheckResults` preserves the results-tree invariant. -/
theorem addCheckResults_ok_inv {st : LintState} {n : String} {b : Bool}
    {r : Option String} {st' : LintState}
    (h : addCheckResults st n b r = .ok st')
    (hinv : resultsDictInvB st.results = true) :
    resultsDictInvB st'.results = true := by
  obtain ⟨kvs, hres, hall⟩ := resultsDictInvB_dict hinv
  obtain ⟨kvs', hu, hall'⟩ := undItems_checkVal_total hall n b r
  unfold addCheckResults at h
  rw [hres, hu] at h
  cases h
  simpa [resultsDictInvB] using hall'

theorem syntaxCheck_ok_inv {st : LintState} {p : Except String PyVal}
    {phase : Option String} {st' : LintState}
    (h : syntaxCheck st p phase = .ok st')
    (hinv : resultsDictInvB st.results = true) :
    resultsDictInvB st'.results = true := by
  unfold syntaxCheck at h
  split at h
  · exact addCheckResults_ok_inv h hinv
  · exact addCheckResults_ok_inv h hinv

theorem syntaxCheck_lookup {st : LintState} {p : Except String PyVal}
    {phase : Option String} {st' : LintState}
    (h : syntaxCheck st p phase = .ok st') (k : String)
    (hk : k ≠ "SyntaxValid") : resultsLookup st' k = resultsLookup st k := by
  unfold syntaxCheck at h
  split at h
  · exact (addCheckResults_ok h).2.2.2 k hk
  · exact (addCheckResults_ok h).2.2.2 k hk

theorem expandTemplate_ok_inv {env : LintEnv} {st st' : LintState}
    {rp : Except String PyVal}
    (h : expandTemplate env st = .ok (st', rp))
    (hinv : resultsDictInvB st.results = true) :
    resultsDictInvB st'.results = true := by
  unfold expandTemplate at h
  split at h
  · exact absurd h (by simp)
  · split at h
    · split at h
      · exact absurd h (by simp)
      · rename_i st1 heq
        cases h
        exact addCheckResults_ok_inv heq hinv
    · split at h
      · exact absurd h (by simp)
      · rename_i st1 heq1
        split at h
        · exact absurd h (by simp)
        · rename_i st2 heq2
          cases h
          exact addCheckResults_ok_inv heq2 (addCheckResults_ok_inv heq1 hinv)
    · exact absurd h (by simp)

theorem expandTemplate_lookup {env : LintEnv} {st st' : LintState}
    {rp : Except String PyVal}
    (h : expandTemplate env st = .ok (st', rp)) (k : String)
    (hk : k ≠ "TemplateValid") : resultsLookup st' k = resultsLookup st k := by
  unfold expandTemplate at h
  split at h
  · exact absurd h (by simp)
  · split at h
    · split at h
      · exact absurd h (by simp)
      · rename_i st1 heq
        cases h
        exact (addCheckResults_ok heq).2.2.2 k hk
    · split at h
      · exact absurd h (by simp)
      · rename_i st1 heq1
        split at h
        · exact absurd h (by simp)
        · rename_i st2 heq2
          cases h
          rw [(addCheckResults_ok heq2).2.2.2 k hk,
            (addCheckResults_ok heq1).2.2.2 k hk]
    · exact absurd h (by simp)

/-- After the pre-`StageCheck` phase of `Lint`, the results tree satisfies
the dict invariant and has no `stages` entry yet. -/
theorem preRun_inv {env : LintEnv} {p1 : Except String PyVal} {defaults : PyVal}
    {st : LintState} (h : preRun env p1 defaults = .ok st) :
    resultsDictInvB st.results = true ∧ resultsLookup st "stages" = none := by
  have hfresh : resultsDictInvB freshState.results = true := by decide
  have hfreshs : resultsLookup freshState "stages" = none := rfl
  unfold preRun at h
  split at h
  · exact absurd h (by simp)
  · rename_i st1 heq1
    have h1 : resultsDictInvB st1.results = true := syntaxCheck_ok_inv heq1 hfresh
    have h1s : resultsLookup st1 "stages" = none := by
      rw [syntaxCheck_lookup heq1 "stages" (by decide)]
      exact hfreshs
    split at h
    · split at h
      · exact absurd h (by simp)
      · rename_i st2 heq2
        obtain ⟨_, _, hres2⟩ := addDefaultOptions_props heq2
        have h2 : resultsDictInvB st2.results = true := by rw [hres2]; exact h1
        have h2s : resultsLookup st2 "stages" = none := by
          unfold resultsLookup
          rw [hres2]
          exact h1s
        split at h
        · exact absurd h (by simp)
        · rename_i st3 rp heq3
          have h3 : resultsDictInvB st3.results = true :=
            expandTemplate_ok_inv heq3 h2
          have h3s : resultsLookup st3 "stages" = none := by
            rw [expandTemplate_lookup heq3 "stages" (by decide)]
            exact h2s
          refine ⟨syntaxCheck_ok_inv h h3, ?_⟩
          rw [syntaxCheck_lookup h "stages" (by decide)]
          exact h3s
    · cases h
      exact ⟨h1, h1s⟩

theorem runStageChecks_total {l : List CheckRec} :
    ∀ {st : LintState}, resultsDictInvB st.results = true →
      ∃ st', runStageChecks st l = .ok st' ∧
        resultsDictInvB st'.results = true := by
  induction l with
  | nil => exact fun {st} hinv => ⟨st, rfl, hinv⟩
  | cons c rest ih =>
    intro st hinv
    obtain ⟨st1, ha, hinv1⟩ := addCheckResults_total hinv c.name c.pass c.reason
    obtain ⟨st', ih', hinv'⟩ := ih hinv1
    refine ⟨st', ?_, hinv'⟩
    unfold runStageChecks
    rw [ha]
    exact ih'

theorem stageSafeB_dict {s : PyVal} (h : stageSafeB s = true) :
    ∃ skvs, s = PyVal.pydict skvs ∧ srcSnkWfB skvs "sources" = true ∧
      srcSnkWfB skvs "sinks" = true := by
  cases s with
  | pydict skvs =>
    simp only [stageSafeB, Bool.and_eq_true] at h
    exact ⟨skvs, rfl, h.1, h.2⟩
  | pynone => simp [stageSafeB] at h
  | pybool b => simp [stageSafeB] at h
  | pyint i => simp [stageSafeB] at h
  | pystr s => simp [stageSafeB] at h
  | pylist l => simp [stageSafeB] at h

theorem typeCheck_ok_inv {env : LintEnv} {st : LintState} {s : PyVal}
    {st' : LintState} (h : typeCheck env st s = .ok st')
    (hinv : resultsDictInvB st.results = true) :
    resultsDictInvB st'.results = true := by
  unfold typeCheck at h
  split at h
  · exact absurd h (by simp)
  · split at h
    · split at h
      · exact addCheckResults_ok_inv h hinv
      · exact addCheckResults_ok_inv h hinv
      · exact absurd h (by simp)
    · exact addCheckResults_ok_inv h hinv

theorem typeCheck_ok_importErr {env : LintEnv} {st : LintState} {s : PyVal}
    {st' : LintState} {m : String} (h : typeCheck env st s = .ok st')
    (hgs : env.getStage s = .importErr m) : st'.valid = false := by
  unfold typeCheck at h
  split at h
  · exact absurd h (by simp)
  · split at h
    · split at h
      · rename_i o heqg
        rw [hgs] at heqg
        exact StageRes.noConfusion heqg
      · rw [(addCheckResults_ok h).1]
        simp
      · rename_i m' heqg
        rw [hgs] at heqg
        exact StageRes.noConfusion heqg
    · rw [(addCheckResults_ok h).1]
      simp

theorem sourceSinkOne_ok_inv {st : LintState} {s : PyVal} {which : String}
    {st' : LintState} (h : sourceSinkOne st s which = .ok st')
    (hinv : resultsDictInvB st.results = true) :
    resultsDictInvB st'.results = true := by
  unfold sourceSinkOne at h
  split at h
  · exact absurd h (by simp)
  · split at h
    · split at h
      · exact absurd h (by simp)
      · split at h
        · exact addCheckResults_ok_inv h hinv
        · split at h
          · exact absurd h (by simp)
          · exact addCheckResults_ok_inv h hinv
    · cases h
      exact hinv

theorem sourceSinkOne_noerr {st : LintState} {skvs : List (String × PyVal)}
    {which : String} {e : String}
    (hwf : srcSnkWfB skvs which = true)
    (hinv : resultsDictInvB st.results = true)
    (h : sourceSinkOne st (.pydict skvs) which = .error e) : False := by
  unfold sourceSinkOne at h
  split at h
  · rename_i e' heqc
    simp [pyContains] at heqc
  · rename_i present heqc
    simp only [pyContains] at heqc
    have hp : present = hasKey which skvs := (Except.ok.inj heqc).symm
    subst hp
    split at h
    · rename_i hpres
      obtain ⟨val, hsub⟩ := Option.isSome_iff_exists.mp hpres
      split at h
      · rename_i e' heqg
        simp [pyGetItem, hsub] at heqg
      · rename_i val' heqg
        simp only [pyGetItem, hsub] at heqg
        have hv : val = val' := Except.ok.inj heqg
        subst hv
        unfold srcSnkWfB at hwf
        rw [hsub] at hwf
        split at h
        · obtain ⟨st', ha, _⟩ := addCheckResults_total hinv
            ("FieldExists [" ++ which ++ "]") true (some "Invalid value: 'null'")
          rw [ha] at h
          exact Except.noConfusion h
        · split at h
          · rename_i e' heqn
            cases val with
            | pynone => exact absurd rfl (by assumption)
            | pylist l => simp [pyContains] at heqn
            | pydict d => simp [pyContains] at heqn
            | pybool b => simp at hwf
            | pyint i => simp at hwf
            | pystr s => simp at hwf
          · rename_i hasNone heqn
            obtain ⟨st', ha, _⟩ := addCheckResults_total hinv
              ("FieldExists [" ++ which ++ "]") (!hasNone)
              (some "Invalid value: 'null'")
            rw [ha] at h
            exact Except.noConfusion h
    · exact Except.noConfusion h

theorem lintStage_total {env : LintEnv} {s : PyVal}
    (hs : stageSafeB s = true) (hnr : ∀ s' m, env.getStage s' ≠ .raised m) :
    ∃ sub, lintStage env s = .ok sub := by
  obtain ⟨skvs, rfl, hwfsrc, hwfsnk⟩ := stageSafeB_dict hs
  cases hf : lintStage env (.pydict skvs) with
  | ok sub => exact ⟨sub, rfl⟩
  | error e =>
    exfalso
    have hfri : resultsDictInvB freshState.results = true := by decide
    unfold lintStage at hf
    split at hf
    · rename_i e' heq1
      unfold typeCheck at heq1
      split at heq1
      · rename_i e2 heqg
        simp [pyGet] at heqg
      · rename_i tv heqg
        split at heq1
        · split at heq1
          · rename_i o heqs
            obtain ⟨st1, ha, _⟩ := addCheckResults_total hfri
              ("TypeValid [" ++ pyStrOf tv ++ "]") true none
            rw [ha] at heq1
            exact Except.noConfusion heq1
          · rename_i m heqs
            obtain ⟨st1, ha, _⟩ := addCheckResults_total hfri
              ("TypeValid [" ++ pyStrOf tv ++ "]") false (some m)
            rw [ha] at heq1
            exact Except.noConfusion heq1
          · rename_i m heqs
            exact hnr _ m heqs
        · obtain ⟨st1, ha, _⟩ := addCheckResults_total hfri
            ("TypeValid [" ++ pyStrOf tv ++ "]") false (some "Type must be provided.")
          rw [ha] at heq1
          exact Except.noConfusion heq1
    · rename_i st1 heq1
      have hinv1 := typeCheck_ok_inv heq1 hfri
      split at hf
      · rename_i e' heq2
        split at heq2
        · rename_i hvalid
          split at heq2
          · rename_i checks heqs
            obtain ⟨st2, h2, _⟩ := runStageChecks_total hinv1
            rw [h2] at heq2
            exact Except.noConfusion heq2
          · exact Except.noConfusion heq2
          · rename_i m heqs
            have hv := typeCheck_ok_importErr heq1 heqs
            rw [hv] at hvalid
            exact Bool.noConfusion hvalid
          · rename_i m heqs
            exact hnr _ m heqs
        · exact Except.noConfusion heq2
      · rename_i st2 heq2
        have hinv2 : resultsDictInvB st2.results = true := by
          split at heq2
          · split at heq2
            · rename_i checks heqs
              obtain ⟨st2', h2', hinv'⟩ := runStageChecks_total hinv1
              rw [h2'] at heq2
              cases heq2
              exact hinv'
            · cases heq2
              exact hinv1
            · exact absurd heq2 (by simp)
            · exact absurd heq2 (by simp)
          · cases heq2
            exact hinv1
        split at hf
        · rename_i e' heq3
          exact sourceSinkOne_noerr hwfsrc hinv2 heq3
        · rename_i st3 heq3
          exact sourceSinkOne_noerr hwfsnk (sourceSinkOne_ok_inv heq3 hinv2) hf

theorem addStageCheckResults_ok_invwf {st : LintState} {category : String}
    {sub : LintState} {st' : LintState}
    (h : addStageCheckResults st category sub = .ok st')
    (hinv : resultsDictInvB st.results = true)
    (hsw : stagesWfB (resultsLookup st "stages") = true) :
    resultsDictInvB st'.results = true ∧
      stagesWfB (resultsLookup st' "stages") = true := by
  obtain ⟨v0, res0, cfg0, tr0⟩ := st
  obtain ⟨kvs, hres, hall⟩ := resultsDictInvB_dict hinv
  simp only at hres
  subst hres
  simp only [addStageCheckResults] at h
  simp only [resultsLookup, pyLookup] at hsw
  split at h
  · rename_i hst
    cases h
    constructor
    · simpa [resultsDictInvB] using all_dictSet hall
        (show isDictB (PyVal.pydict [(category, PyVal.pylist [sub.results])]) =
          true from rfl)
    · simp only [resultsLookup, pyLookup, lookupKV_dictSet_self]
      simp [stagesWfB, isListB]
  · rename_i skvs hst
    rw [hst] at hsw
    have hallsk : skvs.all (fun kv => isListB kv.2) = true := by
      simpa [stagesWfB] using hsw
    split at h
    · rename_i hcat
      cases h
      constructor
      · simpa [resultsDictInvB] using all_dictSet hall
          (show isDictB (PyVal.pydict
            (dictSet skvs category (PyVal.pylist [sub.results]))) = true from rfl)
      · simp only [resultsLookup, pyLookup, lookupKV_dictSet_self]
        simpa [stagesWfB] using all_dictSet hallsk
          (show isListB (PyVal.pylist [sub.results]) = true from rfl)
    · rename_i l hcat
      cases h
      constructor
      · simpa [resultsDictInvB] using all_dictSet hall
          (show isDictB (PyVal.pydict (dictSet skvs category
            (PyVal.pylist (l ++ [sub.results])))) = true from rfl)
      · simp only [resultsLookup, pyLookup, lookupKV_dictSet_self]
        simpa [stagesWfB] using all_dictSet hallsk
          (show isListB (PyVal.pylist (l ++ [sub.results])) = true from rfl)
    · rename_i cv hcat hne
      have hlv := all_lookupKV hallsk hne
      cases cv <;> simp [isListB] at hlv
      exact absurd rfl (hcat _)
  · exact Except.noConfusion h

theorem addStageCheckResults_noerr {st : LintState} {category : String}
    {sub : LintState} {e : String}
    (h : addStageCheckResults st category sub = .error e)
    (hinv : resultsDictInvB st.results = true)
    (hsw : stagesWfB (resultsLookup st "stages") = true) : False := by
  obtain ⟨v0, res0, cfg0, tr0⟩ := st
  obtain ⟨kvs, hres, hall⟩ := resultsDictInvB_dict hinv
  simp only at hres
  subst hres
  simp only [addStageCheckResults] at h
  simp only [resultsLookup, pyLookup] at hsw
  split at h
  · exact Except.noConfusion h
  · rename_i skvs hst
    rw [hst] at hsw
    have hallsk : skvs.all (fun kv => isListB kv.2) = true := by
      simpa [stagesWfB] using hsw
    split at h
    · exact Except.noConfusion h
    · exact Except.noConfusion h
    · rename_i cv hcat hne
      have hlv := all_lookupKV hallsk hne
      cases cv <;> simp [isListB] at hlv
      exact absurd rfl (hcat _)
  · rename_i sv hst hne
    rw [hne] at hsw
    cases sv <;> simp [stagesWfB] at hsw
    exact absurd rfl (hst _)

theorem lintStages_total {env : LintEnv} {category : String}
    (hnr : ∀ s' m, env.getStage s' ≠ .raised m) :
    ∀ {l : List PyVal} {st : LintState}, l.all stageSafeB = true →
      resultsDictInvB st.results = true →
      stagesWfB (resultsLookup st "stages") = true →
      ∃ st', lintStages env st category l = .ok st' ∧
        resultsDictInvB st'.results = true ∧
        stagesWfB (resultsLookup st' "stages") = true := by
  intro l
  induction l with
  | nil => exact fun {st} _ hinv hsw => ⟨st, rfl, hinv, hsw⟩
  | cons s rest ih =>
    intro st hall hinv hsw
    simp only [List.all_cons, Bool.and_eq_true] at hall
    obtain ⟨sub, hsub⟩ := lintStage_total hall.1 hnr
    cases ha : addStageCheckResults st category sub with
    | error e => exact absurd ha (fun hh => addStageCheckResults_noerr hh hinv hsw)
    | ok st1 =>
      obtain ⟨hinv1, hsw1⟩ := addStageCheckResults_ok_invwf ha hinv hsw
      obtain ⟨st', ih', hinv', hsw'⟩ := ih hall.2 hinv1 hsw1
      refine ⟨st', ?_, hinv', hsw'⟩
      unfold lintStages
      rw [hsub]
      show (match addStageCheckResults st category sub with
            | Except.error e => (Except.error e : Except String LintState)
            | Except.ok st2 => lintStages env st2 category rest) = Except.ok st'
      rw [ha]
      exact ih'

theorem catSafeB_list {kvs : List (String × PyVal)} {cat : String}
    (h : catSafeB kvs cat = true) :
    ∃ l, (lookupKV cat kvs).getD (.pylist []) = .pylist l ∧
      l.all stageSafeB = true := by
  unfold catSafeB at h
  cases hv : (lookupKV cat kvs).getD (.pylist []) with
  | pylist l =>
    rw [hv] at h
    exact ⟨l, rfl, by simpa [stagesListSafeB] using h⟩
  | pynone => rw [hv] at h; simp [stagesListSafeB] at h
  | pybool b => rw [hv] at h; simp [stagesListSafeB] at h
  | pyint i => rw [hv] at h; simp [stagesListSafeB] at h
  | pystr s => rw [hv] at h; simp [stagesListSafeB] at h
  | pydict d => rw [hv] at h; simp [stagesListSafeB] at h

theorem stageCheckCore_total {env : LintEnv} {st : LintState}
    {kvs : List (String × PyVal)}
    (hnr : ∀ s' m, env.getStage s' ≠ .raised m)
    (hinv : resultsDictInvB st.results = true)
    (hsw : stagesWfB (resultsLookup st "stages") = true)
    (hcs : stageCheckCoreSafeB (.pydict kvs) = true) :
    ∃ st', stageCheckCore env st (.pydict kvs) = .ok st' := by
  simp only [stageCheckCoreSafeB, Bool.and_eq_true] at hcs
  obtain ⟨⟨hcin, hctr⟩, hcout⟩ := hcs
  obtain ⟨lin, hlin, hlinall⟩ := catSafeB_list hcin
  obtain ⟨ltr, hltr, hltrall⟩ := catSafeB_list hctr
  obtain ⟨lout, hlout, hloutall⟩ := catSafeB_list hcout
  cases hf : stageCheckCore env st (.pydict kvs) with
  | ok st' => exact ⟨st', rfl⟩
  | error e =>
    exfalso
    unfold stageCheckCore at hf
    split at hf
    · rename_i e' heqc
      simp [pyContains] at heqc
    · rename_i bi heqc
      simp only [pyContains] at heqc
      have hbi : hasKey "inputs" kvs = bi := Except.ok.inj heqc
      split at hf
      · rename_i e' heqt
        split at heqt
        · rename_i hbit
          rw [hbit] at hbi
          obtain ⟨v, hv⟩ := Option.isSome_iff_exists.mp hbi
          simp [pyGetItem, hv, Except.map] at heqt
        · exact Except.noConfusion heqt
      · rename_i ti heqt
        split at hf
        · rename_i e' hequ
          split at hequ
          · exact Except.noConfusion hequ
          · split at hequ
            · rename_i e2 heqc2
              simp [pyContains] at heqc2
            · rename_i bo heqc2
              simp only [pyContains] at heqc2
              have hbo : hasKey "outputs" kvs = bo := Except.ok.inj heqc2
              split at hequ
              · rename_i hbot
                rw [hbot] at hbo
                obtain ⟨v, hv⟩ := Option.isSome_iff_exists.mp hbo
                simp [pyGetItem, hv, Except.map] at hequ
              · exact Except.noConfusion hequ
        · rename_i hasIO hequ
          split at hf
          · rename_i e' heqa
            obtain ⟨st1, ha, _⟩ := addCheckResults_total hinv
              "HasOneInputOrOutputStage" hasIO
              (some "Must have at least one \"inputs\" or \"outputs\" stage.")
            rw [ha] at heqa
            exact Except.noConfusion heqa
          · rename_i st1 heqa
            have hinv1 := addCheckResults_ok_inv heqa hinv
            have hsw1 : stagesWfB (resultsLookup st1 "stages") = true := by
              rw [(addCheckResults_ok heqa).2.2.2 "stages" (by decide)]
              exact hsw
            split at hf
            · rename_i e' heqk
              simp [pyKeys] at heqk
            · rename_i keys heqk
              split at hf
              · rename_i e' heqa2
                obtain ⟨st2, ha2, _⟩ := addCheckResults_total hinv1
                  "NoUnknownKeys"
                  (keys.filter (fun k => !memStr k validRootKeys)).isEmpty
                  (some ("Unrecognized config keys: " ++
                    joinComma (sortStrings (dedupStr
                      (keys.filter (fun k => !memStr k validRootKeys))))))
                rw [ha2] at heqa2
                exact Except.noConfusion heqa2
              · rename_i st2 heqa2
                have hinv2 := addCheckResults_ok_inv heqa2 hinv1
                have hsw2 : stagesWfB (resultsLookup st2 "stages") = true := by
                  rw [(addCheckResults_ok heqa2).2.2.2 "stages" (by decide)]
                  exact hsw1
                split at hf
                · rename_i e' heqg
                  simp [pyGet] at heqg
                · rename_i vin heqg
                  simp only [pyGet] at heqg
                  have hvin : (lookupKV "inputs" kvs).getD (.pylist []) = vin :=
                    Except.ok.inj heqg
                  rw [hlin] at hvin
                  subst hvin
                  split at hf
                  · rename_i e' heqi
                    simp [pyIter] at heqi
                  · rename_i lin' heqi
                    simp only [pyIter] at heqi
                    have hli : lin = lin' := Except.ok.inj heqi
                    subst hli
                    split at hf
                    · rename_i e' heql
                      obtain ⟨st3, hl, _, _⟩ :=
                        lintStages_total hnr hlinall hinv2 hsw2
                      rw [hl] at heql
                      exact Except.noConfusion heql
                    · rename_i st3 heql
                      obtain ⟨st3', hl', hinv3, hsw3⟩ :=
                        lintStages_total hnr hlinall hinv2 hsw2
                      rw [hl'] at heql
                      have h3 : _ = st3 := Except.ok.inj heql
                      subst h3
                      split at hf
                      · rename_i e' heqg2
                        simp [pyGet] at heqg2
                      · rename_i vtr heqg2
                        simp only [pyGet] at heqg2
                        have hvtr : (lookupKV "transforms" kvs).getD
                            (.pylist []) = vtr := Except.ok.inj heqg2
                        rw [hltr] at hvtr
                        subst hvtr
                        split at hf
                        · rename_i e' heqi2
                          simp [pyIter] at heqi2
                        · rename_i ltr' heqi2
                          simp only [pyIter] at heqi2
                          have hlt : ltr = ltr' := Except.ok.inj heqi2
                          subst hlt
                          split at hf
                          · rename_i e' heql2
                            obtain ⟨st4, hl2, _, _⟩ :=
                              lintStages_total hnr hltrall hinv3 hsw3
                            rw [hl2] at heql2
                            exact Except.noConfusion heql2
                          · rename_i st4 heql2
                            obtain ⟨st4', hl2', hinv4, hsw4⟩ :=
                              lintStages_total hnr hltrall hinv3 hsw3
                            rw [hl2'] at heql2
                            have h4 : _ = st4 := Except.ok.inj heql2
                            subst h4
                            split at hf
                            · rename_i e' heqg3
                              simp [pyGet] at heqg3
                            · rename_i vout heqg3
                              simp only [pyGet] at heqg3
                              have hvout : (lookupKV "outputs" kvs).getD
                                  (.pylist []) = vout := Except.ok.inj heqg3
                              rw [hlout] at hvout
                              subst hvout
                              split at hf
                              · rename_i e' heqi3
                                simp [pyIter] at heqi3
                              · rename_i lout' heqi3
                                simp only [pyIter] at heqi3
                                have hlo : lout = lout' := Except.ok.inj heqi3
                                subst hlo
                                obtain ⟨st5, hl3, _, _⟩ :=
                                  lintStages_total hnr hloutall hinv4 hsw4
                                rw [hl3] at hf
                                exact Except.noConfusion hf

theorem stageCheckCoreSafeB_dict {v : PyVal} (h : stageCheckCoreSafeB v = true) :
    ∃ kvs, v = PyVal.pydict kvs := by
  cases v with
  | pydict kvs => exact ⟨kvs, rfl⟩
  | pynone => simp [stageCheckCoreSafeB] at h
  | pybool b => simp [stageCheckCoreSafeB] at h
  | pyint i => simp [stageCheckCoreSafeB] at h
  | pystr s => simp [stageCheckCoreSafeB] at h
  | pylist l => simp [stageCheckCoreSafeB] at h

/-- `StageCheck` never raises when the config shape is stage-check safe and
the results tree satisfies its invariants. -/
theorem stageCheck_total {env : LintEnv} {st : LintState}
    (hnr : ∀ s' m, env.getStage s' ≠ .raised m)
    (hinv : resultsDictInvB st.results = true)
    (hsw : stagesWfB (resultsLookup st "stages") = true)
    (hsafe : stageCheckSafeB st.config = true) :
    ∃ st', stageCheck env st = .ok st' := by
  unfold stageCheck
  unfold stageCheckSafeB at hsafe
  by_cases ht : pyTruthy st.config = true
  · rw [if_pos ht] at hsafe
    rw [if_pos ht]
    obtain ⟨kvs, hk⟩ := stageCheckCoreSafeB_dict hsafe
    rw [hk] at hsafe ⊢
    exact stageCheckCore_total hnr hinv hsw hsafe
  · rw [if_neg ht]
    exact stageCheckCore_total hnr hinv hsw (by decide)

/-- C2 (counterexample): `Lint` *does* raise: the config text `'[1]'` parses
(to a list, not a dict), survives the pre-template syntax check, and then
`StageCheck`'s `set(config.keys())` raises `AttributeError`, which escapes
to the caller instead of being recorded as a failing check. -/
theorem c2_counterexample :
    lintRun c2env (.ok (.pylist [.pyint 1])) .pynone =
      .error "AttributeError: 'list' object has no attribute 'keys'" := rfl

/-- C2 (amended): `Lint` returns a `LintResult` without raising whenever
(a) the pre-`StageCheck` phase (parsing, option merging, template
expansion) completes and leaves a config of stage-checkable shape, *and*
the `getStage` collaborator never reports a raised non-`ImportError`
exception (hypothesis `hnr`).  `getStage` bundles `pipelines.GetStage`
together with the resolved stage's own `Lint` method, so `hnr` excludes
raises from stage resolution *and* from inside a stage's `Lint` checks —
e.g. `FieldCheck`'s dotted-path `_GetValue` raises `AttributeError` on
`\x7b"type": "BigQueryOutput", "destinationTable": "x"\x7d`, where the
dotted look-up `destinationTable.projectId` calls `.get` on the string
`"x"`.  And, with no side conditions at all, (b) whenever the config text
fails to parse, the parse failure is recorded as a failing `SyntaxValid`
check carrying the `PreTemplate: `-prefixed message, with the overall
result invalid.  (The counterexample shows the unrestricted claim is
false.) -/
theorem c2_lint_no_raise_amended (env : LintEnv) (p1 : Except String PyVal)
    (defaults : PyVal) (stMid : LintState)
    (hnr : ∀ s m, env.getStage s ≠ .raised m)
    (hpre : preRun env p1 defaults = .ok stMid)
    (hsafe : stageCheckSafeB stMid.config = true) :
    (∃ st, lintRun env p1 defaults = .ok st) ∧
    (∀ e defs2, ∃ st2, lintRun env (.error e) defs2 = .ok st2 ∧
      resultsLookup st2 "SyntaxValid" =
        some (.pydict [("pass", .pybool false),
          ("reason", .pystr ("PreTemplate: " ++ e))]) ∧
      st2.valid = false) := by
  constructor
  · obtain ⟨hinv, hstages⟩ := preRun_inv hpre
    have hsw : stagesWfB (resultsLookup stMid "stages") = true := by
      rw [hstages]
      rfl
    obtain ⟨st', hsc⟩ := stageCheck_total hnr hinv hsw hsafe
    refine ⟨st', ?_⟩
    unfold lintRun
    rw [hpre]
    exact hsc
  · intro e defs2
    exact ⟨_, rfl, rfl, rfl⟩

theorem c2_witness :
    (∃ st, lintRun c2wenv (.ok c2wcfg) .pynone = .ok st) ∧
    (∀ e defs2, ∃ st2, lintRun c2wenv (.error e) defs2 = .ok st2 ∧
      resultsLookup st2 "SyntaxValid" =
        some (.pydict [("pass", .pybool false),
          ("reason", .pystr ("PreTemplate: " ++ e))]) ∧
      st2.valid = false) :=
  c2_lint_no_raise_amended c2wenv (.ok c2wcfg) .pynone _
    (fun _ _ h => StageRes.noConfusion h) rfl (by decide)
